import Mathlib

/-!
# Frame grabber (`stream`): configuration, capture, delivery, daily log sink

A shallow embedding of `stream/main.go` and `stream/logger/logger.go`.

Conventions of the embedding:
* a Go `string` is a `String`, a Go `[]byte` payload is `Bytes`, a Go `int`
  is an `Int` (the program does no arithmetic on its integers before the
  places modelled here), a Go `error` is its message, and a function
  returning `(T, error)` returns `Except String T`;
* everything the program obtains from outside (file contents, the YAML
  parser, the clock, the subprocess, the HTTP client, the outcome of
  `os.OpenFile`) is an explicit argument of the function that uses it;
* the file system is an explicit state (`FS`) that also records the system
  calls made, in order.
-/

namespace Stream

abbrev Bytes := List UInt8

/-! ## Configuration (`main.go`, lines 21-60) -/

/-- The `Config` struct of `main.go`. -/
structure Config where
  RTSPURL : String
  IntervalMS : Int
  PostURL : String
  FFmpegPath : String
  RequestTimeoutMS : Int
  OutputDir : String
  LogDir : String
deriving DecidableEq, Repr

/-- The zero value `var cfg Config`. -/
def Config.zero : Config := ⟨"", 0, "", "", 0, "", ""⟩

/-- Lines 40-46 of `loadConfig`: the default transcoder path. -/
def defaultFFmpegPath (goos : String) (cfg : Config) : Config :=
  if cfg.FFmpegPath = "" then
    if goos = "windows" then { cfg with FFmpegPath := "ffmpeg.exe" }
    else { cfg with FFmpegPath := "ffmpeg" }
  else cfg

/-- Lines 47-49 of `loadConfig`: the default tick interval. -/
def defaultIntervalMS (cfg : Config) : Config :=
  if cfg.IntervalMS ≤ 0 then { cfg with IntervalMS := 1000 } else cfg

/-- Lines 50-52 of `loadConfig`: the default per-attempt timeout. -/
def defaultRequestTimeoutMS (cfg : Config) : Config :=
  if cfg.RequestTimeoutMS ≤ 0 then { cfg with RequestTimeoutMS := 5000 } else cfg

/-- Lines 53-55 of `loadConfig`: the default output directory. -/
def defaultOutputDir (cfg : Config) : Config :=
  if cfg.OutputDir = "" then { cfg with OutputDir := "frames" } else cfg

/-- Lines 56-58 of `loadConfig`: the default log directory. -/
def defaultLogDir (cfg : Config) : Config :=
  if cfg.LogDir = "" then { cfg with LogDir := "logs" } else cfg

/-- The function `loadConfig`. `readFile` stands for `os.ReadFile`, `unmarshal`
for `yaml.Unmarshal` applied to the zero-valued `cfg` (a key absent from the
document leaves its field at the zero value), `goos` for `runtime.GOOS`. The
five defaulting statements run in the order of the source. -/
def loadConfig (readFile : String → Except String Bytes)
    (unmarshal : Bytes → Config → Except String Config) (goos : String)
    (path : String) : Except String Config :=
  match readFile path with
  | .error err => .error err
  | .ok data =>
    match unmarshal data Config.zero with
    | .error err => .error err
    | .ok cfg =>
      let cfg := defaultFFmpegPath goos cfg
      let cfg := defaultIntervalMS cfg
      let cfg := defaultRequestTimeoutMS cfg
      let cfg := defaultOutputDir cfg
      let cfg := defaultLogDir cfg
      .ok cfg

/-! ## Durations -/

/-- Two's-complement wrap-around of a Go `int64` (`time.Duration`). -/
def wrapInt64 (x : Int) : Int := (x + 2 ^ 63) % 2 ^ 64 - 2 ^ 63

/-- The expression `time.Duration(ms) * time.Millisecond`, in nanoseconds. -/
def durationOfMS (ms : Int) : Int := wrapInt64 (wrapInt64 ms * 1000000)

/-! ## Frame capture (`main.go`, lines 62-79) -/

/-- What `cmd.Run()` leaves behind: the error it returned (if any) and the
contents of the two buffers wired to the subprocess. -/
structure CmdResult where
  err : Option String
  stdout : Bytes
  stderr : String
deriving DecidableEq, Repr

/-- A command as built by `exec.CommandContext(ctx, name, args...)`; `timeout`
is the duration, in nanoseconds, after which `ctx` expires. -/
structure Cmd where
  name : String
  args : List String
  timeout : Int
deriving DecidableEq, Repr

/-- Lines 63-70 of `captureFrame`: the command handed to `exec.CommandContext`. -/
def captureCmd (timeout : Int) (cfg : Config) : Cmd :=
  { name := cfg.FFmpegPath
    args := ["-rtsp_transport", "tcp",
             "-i", cfg.RTSPURL,
             "-frames:v", "1",
             "-f", "image2pipe",
             "-vcodec", "mjpeg",
             "pipe:1"]
    timeout := timeout }

/-- The function `captureFrame`. `run` stands for `cmd.Run()` of the command
given to it; `timeout` is the duration of the context the caller built. -/
def captureFrame (run : Cmd → CmdResult) (timeout : Int) (cfg : Config) :
    Except String Bytes :=
  let r := run (captureCmd timeout cfg)
  match r.err with
  | some err => .error ("ffmpeg error: " ++ err ++ ": " ++ r.stderr)
  | none => .ok r.stdout

/-! ## Remote delivery (`main.go`, lines 137-158) -/

/-- An outgoing request as `sendImage` builds it; `timeout` is the duration,
in nanoseconds, of the context it is bound to. -/
structure Request where
  Method : String
  URL : String
  Body : Bytes
  Header : List (String × String)
  timeout : Int
deriving DecidableEq, Repr

/-- The state of `resp.Body` as `io.ReadAll` sees it: the text it delivers
before the stream ends, and the error that ended it (none on a clean end). -/
structure BodyStream where
  data : String
  err : Option String
deriving DecidableEq, Repr

/-- The function `io.ReadAll`: the bytes read until the stream ended, with the error. -/
def ioReadAll (b : BodyStream) : String × Option String := (b.data, b.err)

/-- The part of `http.Response` the program looks at. -/
structure Response where
  StatusCode : Int
  Status : String
  Body : BodyStream
deriving DecidableEq, Repr

/-- The HTTP client: `newRequestErr method url` is the error of
`http.NewRequestWithContext` (none when the request can be built),
`roundTrip` is `http.DefaultClient.Do`. -/
structure HTTPClient where
  newRequestErr : String → String → Option String
  roundTrip : Request → Except String Response

/-- The constant `http.StatusOK`. -/
def StatusOK : Int := 200

/-- The constant `http.StatusMultipleChoices`. -/
def StatusMultipleChoices : Int := 300

/-- Lines 141-145 of `sendImage`: the request once its header is set. -/
def postRequest (cfg : Config) (data : Bytes) : Request :=
  { Method := "POST", URL := cfg.PostURL, Body := data,
    Header := [("Content-Type", "image/jpeg")],
    timeout := durationOfMS cfg.RequestTimeoutMS }

/-- The function `sendImage`. -/
def sendImage (client : HTTPClient) (cfg : Config) (data : Bytes) : Except String Unit :=
  match client.newRequestErr "POST" cfg.PostURL with
  | some err => .error err
  | none =>
    match client.roundTrip (postRequest cfg data) with
    | .error err => .error err
    | .ok resp =>
      if resp.StatusCode < StatusOK ∨ resp.StatusCode ≥ StatusMultipleChoices then
        let body := (ioReadAll resp.Body).1
        .error ("unexpected status: " ++ resp.Status ++ ": " ++ body)
      else
        .ok ()

/-! ## The clock and `time.Time.Format` -/

/-- A wall-clock reading of `time.Now()` in the local zone, broken into the
fields `Format` prints. -/
structure Time where
  year : Nat
  month : Nat
  day : Nat
  hour : Nat
  minute : Nat
  second : Nat
  nsec : Nat
deriving DecidableEq, Repr

/-- The readings `time.Now()` can produce that print with a four-digit year. -/
def Time.valid (t : Time) : Prop :=
  t.year < 10000 ∧ 1 ≤ t.month ∧ t.month ≤ 12 ∧ 1 ≤ t.day ∧ t.day ≤ 31 ∧
  t.hour < 24 ∧ t.minute < 60 ∧ t.second < 60 ∧ t.nsec < 1000000000

instance (t : Time) : Decidable t.valid := by unfold Time.valid; infer_instance

/-- The helper `appendInt` of package `time` for a non-negative `x`: the decimal
digits of `x`, zero-padded on the left to `width`. -/
def appendInt (x width : Nat) : String :=
  if width = 2 ∧ x < 100 then
    String.mk [Nat.digitChar (x / 10), Nat.digitChar (x % 10)]
  else if width = 4 ∧ x < 10000 then
    String.mk [Nat.digitChar (x / 1000), Nat.digitChar (x / 100 % 10),
      Nat.digitChar (x / 10 % 10), Nat.digitChar (x % 10)]
  else
    String.mk (List.replicate (width - (Nat.toDigits 10 x).length) '0' ++ Nat.toDigits 10 x)

/-- The helper `appendNano` of package `time` for the layout element `.000`: a
dot and the first three of the nine digits of the nanosecond field. -/
def appendMilli (nsec : Nat) : String :=
  String.mk ['.', Nat.digitChar (nsec / 100000000 % 10), Nat.digitChar (nsec / 10000000 % 10),
    Nat.digitChar (nsec / 1000000 % 10)]

/-- The call `t.Format("2006-01-02")`. -/
def formatDate (t : Time) : String :=
  appendInt t.year 4 ++ "-" ++ appendInt t.month 2 ++ "-" ++ appendInt t.day 2

/-- The call `t.Format("20060102_150405.000")`. -/
def formatStamp (t : Time) : String :=
  appendInt t.year 4 ++ appendInt t.month 2 ++ appendInt t.day 2 ++ "_" ++
    appendInt t.hour 2 ++ appendInt t.minute 2 ++ appendInt t.second 2 ++ appendMilli t.nsec

/-- A reading cut to the precision `formatStamp` prints: date, time of day and
whole milliseconds. -/
def Time.stampKey (t : Time) : Nat × Nat × Nat × Nat × Nat × Nat × Nat :=
  (t.year, t.month, t.day, t.hour, t.minute, t.second, t.nsec / 1000000)

/-- The calendar date of a reading, as the triple year, month, day. -/
def Time.date (t : Time) : Nat × Nat × Nat := (t.year, t.month, t.day)

/-- Calendar order on dates: `a` is not after `b`. -/
def dateLE (a b : Nat × Nat × Nat) : Prop :=
  a.1 < b.1 ∨ (a.1 = b.1 ∧ (a.2.1 < b.2.1 ∨ (a.2.1 = b.2.1 ∧ a.2.2 ≤ b.2.2)))

instance (a b : Nat × Nat × Nat) : Decidable (dateLE a b) := by unfold dateLE; infer_instance

/-! ## The file system seen through package `os` -/

/-- An entry of the process's table of `*os.File` values; a `*os.File` is the
index of its entry, `nil` is `none`. -/
structure OpenFile where
  path : String
  append : Bool
  pos : Nat
  closed : Bool
deriving DecidableEq, Repr

/-- The calls the program makes into package `os`, as recorded in order. -/
inductive SysCall where
  | close (h : Nat)
  | openFile (path : String) (create append : Bool) (ok : Bool)
  | write (h : Nat) (p : Bytes) (ok : Bool)
  | mkdirAll (path : String) (ok : Bool)
  | writeFile (path : String) (data : Bytes) (ok : Bool)
deriving DecidableEq, Repr

/-- The file system: the contents of the regular files, the table of
`*os.File` values handed out so far, and the calls made so far. -/
structure FS where
  files : String → Option Bytes
  handles : List OpenFile
  trace : List SysCall

/-- An empty file system. -/
def FS.empty : FS := { files := fun _ => none, handles := [], trace := [] }

/-- Whether `h` is an entry of the table that has not been closed. -/
def FS.isOpen (fs : FS) (h : Nat) : Bool :=
  match fs.handles[h]? with
  | some e => !e.closed
  | none => false

/-- The method `(*os.File).Close`: the entry is marked closed; closing a closed
file or a value outside the table is an error and changes nothing. -/
def FS.close (fs : FS) (h : Nat) : FS × Option String :=
  let fs := { fs with trace := fs.trace ++ [SysCall.close h] }
  match fs.handles[h]? with
  | some e =>
    if e.closed then (fs, some "file already closed")
    else ({ fs with handles := fs.handles.set h { e with closed := true } }, none)
  | none => (fs, some "invalid argument")

/-- The function `os.OpenFile(path, flags, perm)` for write-only flags with or
without `O_CREATE` and `O_APPEND`. `fail` is the error the operating system
answers with (none when it grants the open). A granted open creates an absent
file empty when `create` is set, keeps the contents of a present one, and
returns a fresh entry of the table. -/
def FS.openFile (fs : FS) (path : String) (create append : Bool) (fail : Option String) :
    FS × Except String Nat :=
  match fail with
  | some err =>
    ({ fs with trace := fs.trace ++ [SysCall.openFile path create append false] }, .error err)
  | none =>
    match fs.files path with
    | none =>
      if create then
        ({ files := Function.update fs.files path (some [])
           handles := fs.handles ++ [{ path := path, append := append, pos := 0, closed := false }]
           trace := fs.trace ++ [SysCall.openFile path create append true] },
         .ok fs.handles.length)
      else
        ({ fs with trace := fs.trace ++ [SysCall.openFile path create append false] },
         .error "no such file or directory")
    | some _ =>
      ({ fs with
           handles := fs.handles ++ [{ path := path, append := append, pos := 0, closed := false }]
           trace := fs.trace ++ [SysCall.openFile path create append true] },
       .ok fs.handles.length)

/-- Bytes `p` written over `c` from offset `pos` on. -/
def overwriteAt (c : Bytes) (pos : Nat) (p : Bytes) : Bytes :=
  c.take pos ++ List.replicate (pos - c.length) 0 ++ p ++ c.drop (pos + p.length)

/-- The method `(*os.File).Write`: with `O_APPEND` the bytes go to the end of the
file, otherwise to the current offset; on a closed file or a value outside the
table nothing is written and the count is 0. A write that reaches an open entry
is taken to complete (no short write, no device error). The recorded call
carries whether the entry was open. -/
def FS.write (fs : FS) (h : Nat) (p : Bytes) : FS × Nat × Option String :=
  match fs.handles[h]? with
  | some e =>
    if e.closed then
      ({ fs with trace := fs.trace ++ [SysCall.write h p false] }, 0, some "file already closed")
    else
      let old := (fs.files e.path).getD []
      if e.append then
        ({ fs with
             files := Function.update fs.files e.path (some (old ++ p))
             trace := fs.trace ++ [SysCall.write h p true] }, p.length, none)
      else
        ({ files := Function.update fs.files e.path (some (overwriteAt old e.pos p))
           handles := fs.handles.set h { e with pos := e.pos + p.length }
           trace := fs.trace ++ [SysCall.write h p true] }, p.length, none)
  | none => ({ fs with trace := fs.trace ++ [SysCall.write h p false] }, 0, some "invalid argument")

/-- The function `os.MkdirAll`; directories are not part of the state, the
operating system's answer is `fail`. -/
def FS.mkdirAll (fs : FS) (path : String) (fail : Option String) : FS × Option String :=
  ({ fs with trace := fs.trace ++ [SysCall.mkdirAll path fail.isNone] }, fail)

/-- The function `os.WriteFile`: when the operating system grants it, the file
is created or truncated and holds exactly `data` afterwards; a refused call is
taken to leave the files as they were. -/
def FS.writeFile (fs : FS) (path : String) (data : Bytes) (fail : Option String) :
    FS × Option String :=
  match fail with
  | some err => ({ fs with trace := fs.trace ++ [SysCall.writeFile path data false] }, some err)
  | none =>
    ({ fs with
         files := Function.update fs.files path (some data)
         trace := fs.trace ++ [SysCall.writeFile path data true] }, none)

/-! ## The daily log sink (`logger.go`, lines 47-74) -/

/-- The struct `dailyFileWriter`; the field `prefix` is `filePrefix` here, and
the mutex has no counterpart in this sequential model. -/
structure dailyFileWriter where
  dir : String
  filePrefix : String
  date : String
  file : Option Nat
deriving DecidableEq, Repr

/-- The literal `&dailyFileWriter{dir: logDir, prefix: p}` of `Setup`. -/
def dailyFileWriter.new (dir p : String) : dailyFileWriter :=
  { dir := dir, filePrefix := p, date := "", file := none }

/-- Lines 62-64 of `Write`: `if w.file != nil { _ = w.file.Close() }`; the error
of `Close` is dropped. -/
def closeIfOpen (fs : FS) (f : Option Nat) : FS :=
  match f with
  | some h => (fs.close h).1
  | none => fs

/-- The method `(*os.File).Write` on a possibly nil receiver. -/
def fileWrite (fs : FS) (f : Option Nat) (p : Bytes) : FS × Nat × Option String :=
  match f with
  | some h => fs.write h p
  | none => (fs, 0, some "invalid argument")

/-- The method `dailyFileWriter.Write`. `join` stands for `filepath.Join`,
`now` for the reading of `time.Now()`, `openErr` for the answer of the
operating system should the call reach `os.OpenFile`. The result is the sink,
the file system, the byte count and the error. -/
def dailyFileWriter.Write (join : String → String → String) (w : dailyFileWriter) (fs : FS)
    (now : Time) (openErr : Option String) (p : Bytes) :
    dailyFileWriter × FS × Nat × Option String :=
  let today := formatDate now
  if w.file = none ∨ w.date ≠ today then
    let fs1 := closeIfOpen fs w.file
    let filename := join w.dir (w.filePrefix ++ "-" ++ today ++ ".log")
    match fs1.openFile filename true true openErr with
    | (fs2, .error err) => (w, fs2, 0, some err)
    | (fs2, .ok f) =>
      let w1 := { w with file := some f, date := today }
      let r := fileWrite fs2 w1.file p
      (w1, r)
  else
    let r := fileWrite fs w.file p
    (w, r)

/-- One `Write` call as the outside world shapes it: the clock reading, the
answer to an `os.OpenFile` and the bytes to write. -/
structure WriteCall where
  now : Time
  openErr : Option String
  p : Bytes
deriving DecidableEq, Repr

/-- A sequence of `Write` calls on one sink, one after the other. -/
def runWrites (join : String → String → String) :
    dailyFileWriter → FS → List WriteCall → dailyFileWriter × FS
  | w, fs, [] => (w, fs)
  | w, fs, c :: cs =>
    let r := w.Write join fs c.now c.openErr c.p
    runWrites join r.1 r.2.1 cs

/-- How many `os.OpenFile` calls a trace holds. -/
def countOpens (tr : List SysCall) : Nat :=
  (tr.filter fun c => match c with
    | .openFile _ _ _ _ => true
    | _ => false).length

/-- Every `(*os.File).Write` recorded in a trace reached an entry of the table
that was not closed at that moment. -/
def allWritesOpen (tr : List SysCall) : Prop :=
  ∀ h p ok, SysCall.write h p ok ∈ tr → ok = true

/-! ## Local delivery (`main.go`, lines 128-135) -/

/-- The function `saveImage`. `now` is the reading of `time.Now()`, `mkdirErr`
and `writeErr` the answers of the operating system to `os.MkdirAll` and
`os.WriteFile`. -/
def saveImage (join : String → String → String) (fs : FS) (cfg : Config) (data : Bytes)
    (now : Time) (mkdirErr writeErr : Option String) : FS × Option String :=
  match fs.mkdirAll cfg.OutputDir mkdirErr with
  | (fs1, some err) => (fs1, some err)
  | (fs1, none) =>
    let name := formatStamp now ++ ".jpg"
    let path := join cfg.OutputDir name
    fs1.writeFile path data writeErr

/-- The path separator used in the examples: `filepath.Join` on a clean
relative directory and a plain file name, in the Unix form. -/
def joinSlash (d n : String) : String := d ++ "/" ++ n

/-- A configuration for the examples: local delivery into `out`. -/
def cfgLocal : Config := ⟨"rtsp://cam", 500, "", "ffmpeg", 2000, "out", "logs"⟩

/-- A configuration for the examples: remote delivery. -/
def cfgRemote : Config := ⟨"rtsp://cam", 500, "http://srv/up", "ffmpeg", 2000, "out", "logs"⟩

/-- Noon of 9 March 2024, five milliseconds in. -/
def noonA : Time := ⟨2024, 3, 9, 12, 0, 0, 5000000⟩

/-- The same millisecond as `noonA`, 999999 nanoseconds later. -/
def noonB : Time := ⟨2024, 3, 9, 12, 0, 0, 5999999⟩

/-- One millisecond after `noonA`. -/
def noonC : Time := ⟨2024, 3, 9, 12, 0, 0, 6000000⟩

/-- Shortly before midnight of 9 March 2024. -/
def lateEvening : Time := ⟨2024, 3, 9, 23, 59, 59, 999999999⟩

/-- Shortly after midnight of 10 March 2024. -/
def earlyMorning : Time := ⟨2024, 3, 10, 0, 0, 0, 5000000⟩

/-- A sink that wrote on 9 March 2024 and still holds that day's handle. -/
def sinkDay1 : dailyFileWriter :=
  { dir := "logs", filePrefix := "app", date := "2024-03-09", file := some 0 }

/-- The file system that goes with `sinkDay1`: one log file, its handle open. -/
def fsDay1 : FS :=
  { files := fun q => if q = "logs/app-2024-03-09.log" then some [1, 2] else none
    handles := [{ path := "logs/app-2024-03-09.log", append := true, pos := 0, closed := false }]
    trace := [] }

/-- Four writes: two late on 9 March 2024, two early on 10 March, every open granted. -/
def fourWrites : List WriteCall :=
  [⟨lateEvening, none, [1, 2]⟩, ⟨lateEvening, none, [3]⟩, ⟨earlyMorning, none, [4]⟩,
   ⟨earlyMorning, none, [5]⟩]

/-- The writes of `fourWrites` with the first open on 10 March refused. -/
def fourWritesOneRefused : List WriteCall :=
  [⟨lateEvening, none, [1, 2]⟩, ⟨lateEvening, none, [3]⟩,
   ⟨earlyMorning, some "permission denied", [4]⟩, ⟨earlyMorning, none, [5]⟩]

/-! ## The capture loop (`main.go`, lines 81-126) -/

/-- The two loggers of package `logger`. -/
inductive Level where
  | Info
  | Error
deriving DecidableEq, Repr

/-- What `main` does that is visible from outside, in order: the calls of
`captureFrame`, `saveImage` and `sendImage` with the bytes they receive, the
`Printf` calls on a logger, and the receive on `ticker.C`. -/
inductive Event where
  | capture (cmd : Cmd)
  | save (data : Bytes)
  | send (data : Bytes)
  | log (level : Level) (msg : String)
  | wait
deriving DecidableEq, Repr

/-- The state `main` acts on: the file system and the events so far. -/
structure World where
  fs : FS
  events : List Event

/-- The state with one more event. -/
def World.emit (wd : World) (e : Event) : World := { wd with events := wd.events ++ [e] }

/-- What the outside world contributes to one pass of the loop body: the
subprocess, the HTTP client, the clock reading and the answers of the
operating system inside `saveImage`, and `time.Since(start)` as `%s` prints it. -/
structure IterEnv where
  run : Cmd → CmdResult
  client : HTTPClient
  saveNow : Time
  mkdirErr : Option String
  writeErr : Option String
  cost : String

/-- Lines 102-122 of `main`: one pass of the loop body. -/
def loopBody (join : String → String → String) (cfg : Config) (env : IterEnv) (wd : World) :
    World :=
  let timeout := durationOfMS cfg.RequestTimeoutMS
  let wd := wd.emit (.capture (captureCmd timeout cfg))
  match captureFrame env.run timeout cfg with
  | .error err => wd.emit (.log .Error ("capture failed: " ++ err))
  | .ok frame =>
    if cfg.PostURL = "" then
      let wd := wd.emit (.save frame)
      match saveImage join wd.fs cfg frame env.saveNow env.mkdirErr env.writeErr with
      | (fs, some err) => { wd with fs := fs }.emit (.log .Error ("save failed: " ++ err))
      | (fs, none) =>
        { wd with fs := fs }.emit
          (.log .Info ("saved frame, size=" ++ toString frame.length ++ " bytes, cost=" ++ env.cost))
    else
      let wd := wd.emit (.send frame)
      match sendImage env.client cfg frame with
      | .error err => wd.emit (.log .Error ("post failed: " ++ err))
      | .ok _ =>
        wd.emit
          (.log .Info ("posted frame, size=" ++ toString frame.length ++ " bytes, cost=" ++ env.cost))

/-- Where control stands in `main`: at the top of the loop body (line 102), at
the receive `<-ticker.C` (line 124), or after the process has ended with an
exit code. -/
inductive MainState where
  | loopHead (wd : World)
  | waitTick (wd : World)
  | exited (code : Nat) (wd : World)

/-- What drives `main` forward: the outside world's part in one pass of the
loop body, or a value arriving on `ticker.C`. -/
inductive Input where
  | attempt (env : IterEnv)
  | tick

/-- Lines 82-100 of `main`: start-up. A configuration that cannot be loaded and
an empty `rtsp_url` end the process through `Fatal` (exit code 1), and
`time.NewTicker` panics (exit code 2) on a non-positive duration. -/
def mainStart (readFile : String → Except String Bytes)
    (unmarshal : Bytes → Config → Except String Config) (goos configPath : String)
    (wd : World) : MainState × Option Config :=
  match loadConfig readFile unmarshal goos configPath with
  | .error err => (.exited 1 (wd.emit (.log .Error ("load config: " ++ err))), none)
  | .ok cfg =>
    if cfg.RTSPURL = "" then
      (.exited 1 (wd.emit (.log .Error "rtsp_url must be set")), none)
    else if durationOfMS cfg.IntervalMS ≤ 0 then
      (.exited 2 wd, none)
    else
      (.loopHead
        (wd.emit (.log .Info ("starting capture loop, interval=" ++ toString cfg.IntervalMS ++ "ms"))),
       some cfg)

/-- Lines 101-125 of `main`: the step function of the loop. At the top of the
body an attempt runs the body and reaches the receive; at the receive a tick
leads back to the top. An input that does not fit the state is not taken. -/
def loopStep (join : String → String → String) (cfg : Config) :
    MainState → Input → Option MainState
  | .loopHead wd, .attempt env => some (.waitTick ((loopBody join cfg env wd).emit .wait))
  | .waitTick wd, .tick => some (.loopHead wd)
  | _, _ => none

/-- The state after a sequence of inputs, none when one of them is not taken. -/
def runInputs (join : String → String → String) (cfg : Config) :
    MainState → List Input → Option MainState
  | s, [] => some s
  | s, i :: is =>
    match loopStep join cfg s i with
    | some s1 => runInputs join cfg s1 is
    | none => none

/-- The inputs of consecutive iterations: each attempt followed by a tick. -/
def iterations : List IterEnv → List Input
  | [] => []
  | e :: es => .attempt e :: .tick :: iterations es

/-- The world of a state. -/
def MainState.world : MainState → World
  | .loopHead wd => wd
  | .waitTick wd => wd
  | .exited _ wd => wd

/-- Whether the process is still inside the loop. -/
def MainState.inLoop : MainState → Bool
  | .exited _ _ => false
  | _ => true

/-- The log records among some events. -/
def logsOf : List Event → List (Level × String)
  | [] => []
  | .log l m :: es => (l, m) :: logsOf es
  | _ :: es => logsOf es

/-- A delivery call: the strategy and the bytes it received. -/
inductive Delivery where
  | local_ (data : Bytes)
  | remote (data : Bytes)
deriving DecidableEq, Repr

/-- The delivery calls among some events. -/
def deliveriesOf : List Event → List Delivery
  | [] => []
  | .save d :: es => .local_ d :: deliveriesOf es
  | .send d :: es => .remote d :: deliveriesOf es
  | _ :: es => deliveriesOf es

/-- An iteration for the examples in which everything succeeds: the transcoder
yields three bytes, the endpoint answers 200. -/
def envOK : IterEnv :=
  { run := fun _ => ⟨none, [1, 2, 3], ""⟩
    client := ⟨fun _ _ => none, fun _ => .ok ⟨200, "200 OK", ⟨"", none⟩⟩⟩
    saveNow := noonA, mkdirErr := none, writeErr := none, cost := "1.5s" }

/-- An iteration for the examples in which the transcoder exits with an error. -/
def envBad : IterEnv :=
  { run := fun _ => ⟨some "exit status 1", [], "no route"⟩
    client := ⟨fun _ _ => none, fun _ => .ok ⟨500, "500 Internal Server Error", ⟨"boom", none⟩⟩⟩
    saveNow := noonA, mkdirErr := none, writeErr := none, cost := "1.5s" }

/-- The world at the start of the examples. -/
def World.empty : World := { fs := FS.empty, events := [] }

/-- A transcoder for the examples that yields three bytes when it is run with
exactly the expected arguments for `rtsp://cam` and fails on any other list. -/
def runStrict (c : Cmd) : CmdResult :=
  if c.args = ["-rtsp_transport", "tcp", "-i", "rtsp://cam", "-frames:v", "1", "-f", "image2pipe",
      "-vcodec", "mjpeg", "pipe:1"] then ⟨none, [1, 2, 3], ""⟩
  else ⟨some "exit status 1", [], "unrecognized option"⟩

/-- An endpoint for the examples that answers 200 to a request whose body is
the three bytes `1, 2, 3` and 400 to any other body. -/
def clientStrict : HTTPClient :=
  { newRequestErr := fun _ _ => none
    roundTrip := fun r =>
      if r.Body = [1, 2, 3] then .ok ⟨200, "200 OK", ⟨"", none⟩⟩
      else .ok ⟨400, "400 Bad Request", ⟨"wrong payload", none⟩⟩ }

/-- An iteration for the examples with the strict transcoder and endpoint. -/
def envStrict : IterEnv :=
  { run := runStrict, client := clientStrict
    saveNow := noonA, mkdirErr := none, writeErr := none, cost := "1.5s" }

/-! ## Theorems -/

theorem defaultFFmpegPath_fields (goos : String) (cfg : Config) :
    (defaultFFmpegPath goos cfg).IntervalMS = cfg.IntervalMS ∧
    (defaultFFmpegPath goos cfg).RequestTimeoutMS = cfg.RequestTimeoutMS ∧
    (defaultFFmpegPath goos cfg).PostURL = cfg.PostURL ∧
    (defaultFFmpegPath goos cfg).RTSPURL = cfg.RTSPURL := by
  unfold defaultFFmpegPath
  split_ifs <;> simp

theorem defaultIntervalMS_fields (cfg : Config) :
    (defaultIntervalMS cfg).IntervalMS = (if cfg.IntervalMS ≤ 0 then 1000 else cfg.IntervalMS) ∧
    (defaultIntervalMS cfg).RequestTimeoutMS = cfg.RequestTimeoutMS := by
  unfold defaultIntervalMS
  split_ifs <;> simp

theorem defaultRequestTimeoutMS_fields (cfg : Config) :
    (defaultRequestTimeoutMS cfg).IntervalMS = cfg.IntervalMS ∧
    (defaultRequestTimeoutMS cfg).RequestTimeoutMS
      = (if cfg.RequestTimeoutMS ≤ 0 then 5000 else cfg.RequestTimeoutMS) := by
  unfold defaultRequestTimeoutMS
  split_ifs <;> simp

theorem defaultOutputDir_fields (cfg : Config) :
    (defaultOutputDir cfg).IntervalMS = cfg.IntervalMS ∧
    (defaultOutputDir cfg).RequestTimeoutMS = cfg.RequestTimeoutMS := by
  unfold defaultOutputDir
  split_ifs <;> simp

theorem defaultLogDir_fields (cfg : Config) :
    (defaultLogDir cfg).IntervalMS = cfg.IntervalMS ∧
    (defaultLogDir cfg).RequestTimeoutMS = cfg.RequestTimeoutMS := by
  unfold defaultLogDir
  split_ifs <;> simp

/-! ### Formatting of clock readings -/

theorem digitChar_inj (a b : Nat) (ha : a < 10) (hb : b < 10)
    (h : Nat.digitChar a = Nat.digitChar b) : a = b := by
  have key : ∀ x y : Fin 10, Nat.digitChar x = Nat.digitChar y → x = y := by decide
  have := key ⟨a, ha⟩ ⟨b, hb⟩ h
  exact Fin.mk.inj_iff.mp this

theorem appendInt_two (x : Nat) (h : x < 100) :
    appendInt x 2 = String.mk [Nat.digitChar (x / 10), Nat.digitChar (x % 10)] := by
  simp [appendInt, h]

theorem appendInt_four (x : Nat) (h : x < 10000) :
    appendInt x 4 = String.mk [Nat.digitChar (x / 1000), Nat.digitChar (x / 100 % 10),
      Nat.digitChar (x / 10 % 10), Nat.digitChar (x % 10)] := by
  simp [appendInt, h]

theorem formatDate_data (t : Time) (h : t.valid) :
    (formatDate t).data
      = [Nat.digitChar (t.year / 1000), Nat.digitChar (t.year / 100 % 10),
         Nat.digitChar (t.year / 10 % 10), Nat.digitChar (t.year % 10), '-',
         Nat.digitChar (t.month / 10), Nat.digitChar (t.month % 10), '-',
         Nat.digitChar (t.day / 10), Nat.digitChar (t.day % 10)] := by
  obtain ⟨hy, _, hm, _, hd, _⟩ := h
  rw [formatDate, appendInt_four _ hy, appendInt_two _ (by omega), appendInt_two _ (by omega)]
  rfl

theorem formatDate_inj (a b : Time) (ha : a.valid) (hb : b.valid)
    (h : formatDate a = formatDate b) : a.date = b.date := by
  have hd := congrArg String.data h
  rw [formatDate_data a ha, formatDate_data b hb] at hd
  obtain ⟨hya, _, hma, _, hda, _⟩ := ha
  obtain ⟨hyb, _, hmb, _, hdb, _⟩ := hb
  simp only [List.cons.injEq, and_true, true_and] at hd
  obtain ⟨h1, h2, h3, h4, h5, h6, h7, h8⟩ := hd
  have e1 := digitChar_inj _ _ (by omega) (by omega) h1
  have e2 := digitChar_inj _ _ (by omega) (by omega) h2
  have e3 := digitChar_inj _ _ (by omega) (by omega) h3
  have e4 := digitChar_inj _ _ (by omega) (by omega) h4
  have e5 := digitChar_inj _ _ (by omega) (by omega) h5
  have e6 := digitChar_inj _ _ (by omega) (by omega) h6
  have e7 := digitChar_inj _ _ (by omega) (by omega) h7
  have e8 := digitChar_inj _ _ (by omega) (by omega) h8
  have hy : a.year = b.year := by omega
  have hm : a.month = b.month := by omega
  have hd : a.day = b.day := by omega
  simp [Time.date, hy, hm, hd]

theorem formatStamp_data (t : Time) (h : t.valid) :
    (formatStamp t).data
      = [Nat.digitChar (t.year / 1000), Nat.digitChar (t.year / 100 % 10),
         Nat.digitChar (t.year / 10 % 10), Nat.digitChar (t.year % 10),
         Nat.digitChar (t.month / 10), Nat.digitChar (t.month % 10),
         Nat.digitChar (t.day / 10), Nat.digitChar (t.day % 10), '_',
         Nat.digitChar (t.hour / 10), Nat.digitChar (t.hour % 10),
         Nat.digitChar (t.minute / 10), Nat.digitChar (t.minute % 10),
         Nat.digitChar (t.second / 10), Nat.digitChar (t.second % 10), '.',
         Nat.digitChar (t.nsec / 100000000 % 10), Nat.digitChar (t.nsec / 10000000 % 10),
         Nat.digitChar (t.nsec / 1000000 % 10)] := by
  obtain ⟨hy, _, hm, _, hd, hh, hmi, hs, _⟩ := h
  rw [formatStamp, appendInt_four _ hy, appendInt_two _ (by omega), appendInt_two _ (by omega),
    appendInt_two _ (by omega), appendInt_two _ (by omega), appendInt_two _ (by omega),
    appendMilli]
  rfl

theorem formatStamp_inj (a b : Time) (ha : a.valid) (hb : b.valid)
    (h : formatStamp a = formatStamp b) : a.stampKey = b.stampKey := by
  have hd := congrArg String.data h
  rw [formatStamp_data a ha, formatStamp_data b hb] at hd
  obtain ⟨hya, _, hma, _, hda, hha, hmia, hsa, hna⟩ := ha
  obtain ⟨hyb, _, hmb, _, hdb, hhb, hmib, hsb, hnb⟩ := hb
  simp only [List.cons.injEq, and_true, true_and] at hd
  obtain ⟨h1, h2, h3, h4, h5, h6, h7, h8, h9, h10, h11, h12, h13, h14, h15, h16, h17⟩ := hd
  have e1 := digitChar_inj _ _ (by omega) (by omega) h1
  have e2 := digitChar_inj _ _ (by omega) (by omega) h2
  have e3 := digitChar_inj _ _ (by omega) (by omega) h3
  have e4 := digitChar_inj _ _ (by omega) (by omega) h4
  have e5 := digitChar_inj _ _ (by omega) (by omega) h5
  have e6 := digitChar_inj _ _ (by omega) (by omega) h6
  have e7 := digitChar_inj _ _ (by omega) (by omega) h7
  have e8 := digitChar_inj _ _ (by omega) (by omega) h8
  have e9 := digitChar_inj _ _ (by omega) (by omega) h9
  have e10 := digitChar_inj _ _ (by omega) (by omega) h10
  have e11 := digitChar_inj _ _ (by omega) (by omega) h11
  have e12 := digitChar_inj _ _ (by omega) (by omega) h12
  have e13 := digitChar_inj _ _ (by omega) (by omega) h13
  have e14 := digitChar_inj _ _ (by omega) (by omega) h14
  have e15 := digitChar_inj _ _ (by omega) (by omega) h15
  have e16 := digitChar_inj _ _ (by omega) (by omega) h16
  have e17 := digitChar_inj _ _ (by omega) (by omega) h17
  have hy : a.year = b.year := by omega
  have hm : a.month = b.month := by omega
  have hd : a.day = b.day := by omega
  have hh : a.hour = b.hour := by omega
  have hmi : a.minute = b.minute := by omega
  have hs : a.second = b.second := by omega
  have hn : a.nsec / 1000000 = b.nsec / 1000000 := by omega
  simp [Time.stampKey, hy, hm, hd, hh, hmi, hs, hn]

theorem formatStamp_congr (a b : Time) (ha : a.valid) (hb : b.valid)
    (h : a.stampKey = b.stampKey) : formatStamp a = formatStamp b := by
  apply String.ext
  rw [formatStamp_data a ha, formatStamp_data b hb]
  simp only [Time.stampKey, Prod.mk.injEq] at h
  obtain ⟨hy, hm, hd, hh, hmi, hs, hn⟩ := h
  have e1 : a.nsec / 100000000 = b.nsec / 100000000 := by omega
  have e2 : a.nsec / 10000000 = b.nsec / 10000000 := by omega
  rw [hy, hm, hd, hh, hmi, hs, hn, e1, e2]

theorem string_append_right_cancel (a b c : String) (h : a ++ c = b ++ c) : a = b := by
  have hd := congrArg String.data h
  rw [String.data_append, String.data_append] at hd
  exact String.ext (List.append_cancel_right hd)

/-! ### Configuration -/

theorem loadConfig_ok (readFile : String → Except String Bytes)
    (unmarshal : Bytes → Config → Except String Config) (goos path : String)
    (data : Bytes) (parsed : Config)
    (hread : readFile path = .ok data) (hparse : unmarshal data Config.zero = .ok parsed) :
    loadConfig readFile unmarshal goos path
      = .ok (defaultLogDir (defaultOutputDir (defaultRequestTimeoutMS (defaultIntervalMS
          (defaultFFmpegPath goos parsed))))) := by
  simp only [loadConfig, hread, hparse]

theorem loadConfig_ok_inv (readFile : String → Except String Bytes)
    (unmarshal : Bytes → Config → Except String Config) (goos path : String) (cfg : Config)
    (h : loadConfig readFile unmarshal goos path = .ok cfg) :
    ∃ data parsed, readFile path = .ok data ∧ unmarshal data Config.zero = .ok parsed := by
  unfold loadConfig at h
  cases hr : readFile path with
  | error e => simp [hr] at h
  | ok data =>
    cases hp : unmarshal data Config.zero with
    | error e => simp [hr, hp] at h
    | ok parsed => exact ⟨data, parsed, rfl, hp⟩

theorem defaults_IntervalMS (goos : String) (parsed : Config) :
    (defaultLogDir (defaultOutputDir (defaultRequestTimeoutMS (defaultIntervalMS
      (defaultFFmpegPath goos parsed))))).IntervalMS
      = (if parsed.IntervalMS ≤ 0 then 1000 else parsed.IntervalMS) := by
  rw [(defaultLogDir_fields _).1, (defaultOutputDir_fields _).1,
    (defaultRequestTimeoutMS_fields _).1, (defaultIntervalMS_fields _).1,
    (defaultFFmpegPath_fields _ _).1]

theorem defaults_RequestTimeoutMS (goos : String) (parsed : Config) :
    (defaultLogDir (defaultOutputDir (defaultRequestTimeoutMS (defaultIntervalMS
      (defaultFFmpegPath goos parsed))))).RequestTimeoutMS
      = (if parsed.RequestTimeoutMS ≤ 0 then 5000 else parsed.RequestTimeoutMS) := by
  rw [(defaultLogDir_fields _).2, (defaultOutputDir_fields _).2,
    (defaultRequestTimeoutMS_fields _).2, (defaultIntervalMS_fields _).2,
    (defaultFFmpegPath_fields _ _).2.1]

/-- C1: for every configuration parsed from the file, `loadConfig` succeeds and
returns `IntervalMS = 1000` when the parsed interval is absent (left at zero),
zero or negative and the parsed value otherwise, and `RequestTimeoutMS = 5000`
when the parsed timeout is absent, zero or negative and the parsed value
otherwise; and every successfully loaded configuration has both fields
strictly positive. -/
theorem loadConfig_defaults (readFile : String → Except String Bytes)
    (unmarshal : Bytes → Config → Except String Config) (goos path : String) :
    (∀ data parsed, readFile path = .ok data → unmarshal data Config.zero = .ok parsed →
      ∃ cfg, loadConfig readFile unmarshal goos path = .ok cfg ∧
        cfg.IntervalMS = (if parsed.IntervalMS ≤ 0 then 1000 else parsed.IntervalMS) ∧
        cfg.RequestTimeoutMS
          = (if parsed.RequestTimeoutMS ≤ 0 then 5000 else parsed.RequestTimeoutMS)) ∧
    (∀ cfg, loadConfig readFile unmarshal goos path = .ok cfg →
      0 < cfg.IntervalMS ∧ 0 < cfg.RequestTimeoutMS) := by
  constructor
  · intro data parsed hread hparse
    exact ⟨_, loadConfig_ok readFile unmarshal goos path data parsed hread hparse,
      defaults_IntervalMS goos parsed, defaults_RequestTimeoutMS goos parsed⟩
  · intro cfg h
    obtain ⟨data, parsed, hread, hparse⟩ := loadConfig_ok_inv readFile unmarshal goos path cfg h
    rw [loadConfig_ok readFile unmarshal goos path data parsed hread hparse] at h
    injection h with h
    subst h
    rw [defaults_IntervalMS, defaults_RequestTimeoutMS]
    constructor <;> split_ifs <;> omega

/-- C1 at a concrete input: a document that sets only `rtsp_url` and a negative
`request_timeout_ms` loads with interval 1000 and timeout 5000. -/
theorem loadConfig_defaults_witness :
    (∃ cfg, loadConfig (fun _ => .ok []) (fun _ z => .ok { z with RTSPURL := "rtsp://cam", RequestTimeoutMS := -3 })
        "linux" "config.yaml" = .ok cfg ∧
      cfg.IntervalMS = 1000 ∧ cfg.RequestTimeoutMS = 5000) ∧
    (0 : Int) < 1000 ∧ (0 : Int) < 5000 :=
  ⟨(loadConfig_defaults (fun _ => .ok []) (fun _ z => .ok { z with RTSPURL := "rtsp://cam", RequestTimeoutMS := -3 })
      "linux" "config.yaml").1 [] { Config.zero with RTSPURL := "rtsp://cam", RequestTimeoutMS := -3 } rfl rfl,
   (loadConfig_defaults (fun _ => .ok []) (fun _ z => .ok { z with RTSPURL := "rtsp://cam", RequestTimeoutMS := -3 })
      "linux" "config.yaml").2
      ⟨"rtsp://cam", 1000, "", "ffmpeg", 5000, "frames", "logs"⟩ rfl⟩

/-! ### Frame capture -/

/-- C7: `captureFrame` runs the transcoder on exactly the command whose name is
`FFmpegPath` and whose argument list is
`-rtsp_transport tcp -i <RTSPURL> -frames:v 1 -f image2pipe -vcodec mjpeg pipe:1`:
its result is the answer of the subprocess to that command (the error with the
captured standard error, or the standard output), and it consults the
subprocess on no other command. The list is the one `captureCmd` builds; two
configurations with the same `RTSPURL` give the same list whatever their other
fields and whatever the deadline. -/
theorem captureFrame_args (run : Cmd → CmdResult) (timeout : Int) (cfg : Config) :
    captureFrame run timeout cfg
      = (match (run { name := cfg.FFmpegPath
                      args := ["-rtsp_transport", "tcp", "-i", cfg.RTSPURL, "-frames:v", "1",
                               "-f", "image2pipe", "-vcodec", "mjpeg", "pipe:1"]
                      timeout := timeout }).err with
         | some err =>
           .error ("ffmpeg error: " ++ err ++ ": " ++
             (run { name := cfg.FFmpegPath
                    args := ["-rtsp_transport", "tcp", "-i", cfg.RTSPURL, "-frames:v", "1",
                             "-f", "image2pipe", "-vcodec", "mjpeg", "pipe:1"]
                    timeout := timeout }).stderr)
         | none =>
           .ok (run { name := cfg.FFmpegPath
                      args := ["-rtsp_transport", "tcp", "-i", cfg.RTSPURL, "-frames:v", "1",
                               "-f", "image2pipe", "-vcodec", "mjpeg", "pipe:1"]
                      timeout := timeout }).stdout) ∧
    (∀ run1 : Cmd → CmdResult,
      run1 { name := cfg.FFmpegPath
             args := ["-rtsp_transport", "tcp", "-i", cfg.RTSPURL, "-frames:v", "1",
                      "-f", "image2pipe", "-vcodec", "mjpeg", "pipe:1"]
             timeout := timeout }
        = run { name := cfg.FFmpegPath
                args := ["-rtsp_transport", "tcp", "-i", cfg.RTSPURL, "-frames:v", "1",
                         "-f", "image2pipe", "-vcodec", "mjpeg", "pipe:1"]
                timeout := timeout } →
      captureFrame run1 timeout cfg = captureFrame run timeout cfg) ∧
    (captureCmd timeout cfg).args
      = ["-rtsp_transport", "tcp", "-i", cfg.RTSPURL, "-frames:v", "1", "-f", "image2pipe",
         "-vcodec", "mjpeg", "pipe:1"] ∧
    (captureCmd timeout cfg).name = cfg.FFmpegPath ∧
    (∀ (timeout1 : Int) (cfg1 : Config), cfg1.RTSPURL = cfg.RTSPURL →
      (captureCmd timeout1 cfg1).args = (captureCmd timeout cfg).args) := by
  refine ⟨rfl, ?_, rfl, rfl, ?_⟩
  · intro run1 h
    simp only [captureFrame, captureCmd, h]
  · intro timeout1 cfg1 h
    simp only [captureCmd, h]

/-- C7 at a concrete input: a transcoder that fails on any argument list but the
expected one yields its three bytes through `captureFrame`. -/
theorem captureFrame_args_witness :
    captureFrame runStrict 2000000000 cfgLocal = .ok [1, 2, 3] :=
  (captureFrame_args runStrict 2000000000 cfgLocal).1.trans rfl

/-! ### Remote delivery -/

theorem string_infix_append (a b : String) : b.data <:+: (a ++ b).data := by
  rw [String.data_append]
  exact ⟨a.data, [], by simp⟩

/-- C2: once `sendImage` has a response, it returns no error if and only if the
status code lies in 200..299, and for every other status code it returns an
error whose message contains the body as `io.ReadAll` delivered it. -/
theorem sendImage_status (client : HTTPClient) (cfg : Config) (data : Bytes) (resp : Response)
    (hreq : client.newRequestErr "POST" cfg.PostURL = none)
    (hresp : client.roundTrip (postRequest cfg data) = .ok resp) :
    (sendImage client cfg data = .ok () ↔ 200 ≤ resp.StatusCode ∧ resp.StatusCode ≤ 299) ∧
    (¬ (200 ≤ resp.StatusCode ∧ resp.StatusCode ≤ 299) →
      ∃ msg, sendImage client cfg data = .error msg ∧
        (ioReadAll resp.Body).1.data <:+: msg.data) := by
  have hs : sendImage client cfg data
      = if resp.StatusCode < StatusOK ∨ resp.StatusCode ≥ StatusMultipleChoices then
          .error ("unexpected status: " ++ resp.Status ++ ": " ++ (ioReadAll resp.Body).1)
        else .ok () := by
    simp only [sendImage, hreq, hresp]
  rw [hs]
  unfold StatusOK StatusMultipleChoices
  constructor
  · constructor
    · intro h
      split_ifs at h with hc
      omega
    · intro h
      rw [if_neg (by omega)]
  · intro h
    rw [if_pos (by omega)]
    exact ⟨_, rfl, string_infix_append _ _⟩

/-- C2 at a concrete input: a 404 answer with body `gone` is an error whose
message contains `gone`. -/
theorem sendImage_status_witness :
    ∃ msg, sendImage ⟨fun _ _ => none, fun _ => .ok ⟨404, "404 Not Found", ⟨"gone", none⟩⟩⟩
        ⟨"rtsp://cam", 1000, "http://srv/up", "ffmpeg", 5000, "frames", "logs"⟩ [1, 2] = .error msg ∧
      "gone".data <:+: msg.data :=
  (sendImage_status ⟨fun _ _ => none, fun _ => .ok ⟨404, "404 Not Found", ⟨"gone", none⟩⟩⟩
    ⟨"rtsp://cam", 1000, "http://srv/up", "ffmpeg", 5000, "frames", "logs"⟩ [1, 2]
    ⟨404, "404 Not Found", ⟨"gone", none⟩⟩ rfl rfl).2 (by decide)

/-! ### Local delivery -/

theorem saveImage_ok (join : String → String → String) (fs : FS) (cfg : Config) (data : Bytes)
    (now : Time) :
    saveImage join fs cfg data now none none
      = ({ files := Function.update fs.files (join cfg.OutputDir (formatStamp now ++ ".jpg"))
             (some data)
           handles := fs.handles
           trace := fs.trace ++ [SysCall.mkdirAll cfg.OutputDir true] ++
             [SysCall.writeFile (join cfg.OutputDir (formatStamp now ++ ".jpg")) data true] },
         none) := by
  simp [saveImage, FS.mkdirAll, FS.writeFile]

theorem joinSlash_inj (d a b : String) (h : joinSlash d a = joinSlash d b) : a = b := by
  have hd := congrArg String.data h
  simp only [joinSlash, String.data_append, List.append_assoc] at hd
  exact String.ext (List.append_cancel_left (List.append_cancel_left hd))

/-- C4, as amended: for two valid clock readings the file names `saveImage`
chooses are equal exactly when the readings agree down to the millisecond. When
they differ there, and `filepath.Join` keeps these two names apart in the
output directory, two successful calls leave two files, each holding the bytes
of its own call. When they agree, the one file holds the bytes of the second
call only. -/
theorem saveImage_names (join : String → String → String) (fs : FS) (cfg : Config)
    (dA dB : Bytes) (tA tB : Time) (hA : tA.valid) (hB : tB.valid) :
    (formatStamp tA ++ ".jpg" = formatStamp tB ++ ".jpg" ↔ tA.stampKey = tB.stampKey) ∧
    (tA.stampKey ≠ tB.stampKey →
      (join cfg.OutputDir (formatStamp tA ++ ".jpg") = join cfg.OutputDir (formatStamp tB ++ ".jpg") →
        formatStamp tA ++ ".jpg" = formatStamp tB ++ ".jpg") →
      (saveImage join (saveImage join fs cfg dA tA none none).1 cfg dB tB none none).2 = none ∧
      (saveImage join (saveImage join fs cfg dA tA none none).1 cfg dB tB none none).1.files
          (join cfg.OutputDir (formatStamp tA ++ ".jpg")) = some dA ∧
      (saveImage join (saveImage join fs cfg dA tA none none).1 cfg dB tB none none).1.files
          (join cfg.OutputDir (formatStamp tB ++ ".jpg")) = some dB) ∧
    (tA.stampKey = tB.stampKey →
      (saveImage join (saveImage join fs cfg dA tA none none).1 cfg dB tB none none).2 = none ∧
      (saveImage join (saveImage join fs cfg dA tA none none).1 cfg dB tB none none).1.files
          (join cfg.OutputDir (formatStamp tA ++ ".jpg")) = some dB) := by
  have hiff : formatStamp tA ++ ".jpg" = formatStamp tB ++ ".jpg" ↔ tA.stampKey = tB.stampKey :=
    ⟨fun h => formatStamp_inj tA tB hA hB (string_append_right_cancel _ _ _ h),
     fun h => by rw [formatStamp_congr tA tB hA hB h]⟩
  refine ⟨hiff, fun hne hjoin => ?_, fun heq => ?_⟩
  · have hpath : join cfg.OutputDir (formatStamp tA ++ ".jpg")
        ≠ join cfg.OutputDir (formatStamp tB ++ ".jpg") :=
      fun h => hne (hiff.mp (hjoin h))
    rw [saveImage_ok, saveImage_ok]
    refine ⟨rfl, ?_, ?_⟩
    · simp [Function.update, hpath]
    · simp [Function.update]
  · rw [saveImage_ok, saveImage_ok, hiff.mpr heq]
    exact ⟨rfl, by simp [Function.update]⟩

/-- C4 at a concrete input: readings one millisecond apart give two files, each
with the bytes of its own call. -/
theorem saveImage_names_witness :
    (saveImage joinSlash (saveImage joinSlash FS.empty cfgLocal [1] noonA none none).1
        cfgLocal [2] noonC none none).2 = none ∧
    (saveImage joinSlash (saveImage joinSlash FS.empty cfgLocal [1] noonA none none).1
        cfgLocal [2] noonC none none).1.files
      (joinSlash cfgLocal.OutputDir (formatStamp noonA ++ ".jpg")) = some [1] ∧
    (saveImage joinSlash (saveImage joinSlash FS.empty cfgLocal [1] noonA none none).1
        cfgLocal [2] noonC none none).1.files
      (joinSlash cfgLocal.OutputDir (formatStamp noonC ++ ".jpg")) = some [2] :=
  (saveImage_names joinSlash FS.empty cfgLocal [1] [2] noonA noonC (by decide) (by decide)).2.1
    (by decide) (joinSlash_inj cfgLocal.OutputDir _ _)

/-- C4 refuted as stated: two calls of `saveImage` with the same output
directory whose clock readings differ but lie in the same millisecond choose
the same file name, and the second call replaces what the first one wrote. -/
theorem saveImage_same_millisecond_collision :
    noonA ≠ noonB ∧
    formatStamp noonA ++ ".jpg" = formatStamp noonB ++ ".jpg" ∧
    (saveImage joinSlash FS.empty cfgLocal [1] noonA none none).2 = none ∧
    (saveImage joinSlash FS.empty cfgLocal [1] noonA none none).1.files
      "out/20240309_120000.005.jpg" = some [1] ∧
    (saveImage joinSlash (saveImage joinSlash FS.empty cfgLocal [1] noonA none none).1
      cfgLocal [2] noonB none none).2 = none ∧
    (saveImage joinSlash (saveImage joinSlash FS.empty cfgLocal [1] noonA none none).1
      cfgLocal [2] noonB none none).1.files "out/20240309_120000.005.jpg" = some [2] := by
  refine ⟨by decide, by decide, rfl, ?_, rfl, ?_⟩
  · rw [saveImage_ok]; decide
  · rw [saveImage_ok, saveImage_ok]; decide

/-! ### The file system -/

theorem close_files (fs : FS) (h : Nat) : (fs.close h).1.files = fs.files := by
  unfold FS.close
  dsimp only
  split
  · split <;> rfl
  · rfl

theorem close_trace (fs : FS) (h : Nat) : (fs.close h).1.trace = fs.trace ++ [SysCall.close h] := by
  unfold FS.close
  dsimp only
  split
  · split <;> rfl
  · rfl

theorem close_length (fs : FS) (h : Nat) : (fs.close h).1.handles.length = fs.handles.length := by
  unfold FS.close
  dsimp only
  split
  · split <;> simp
  · rfl

theorem close_getElem_self (fs : FS) (h : Nat) (e : OpenFile) (he : fs.handles[h]? = some e) :
    (fs.close h).1.handles[h]? = some { e with closed := true } := by
  unfold FS.close
  dsimp only
  rw [he]
  dsimp only
  have hlt : h < fs.handles.length := by
    rcases Nat.lt_or_ge h fs.handles.length with hl | hl
    · exact hl
    · rw [List.getElem?_eq_none hl] at he; cases he
  split
  · rename_i hc
    rw [he]
    congr 1
    cases e
    simp_all
  · simp [List.getElem?_set, hlt]

theorem close_getElem_ne (fs : FS) (h k : Nat) (hk : k ≠ h) :
    (fs.close h).1.handles[k]? = fs.handles[k]? := by
  unfold FS.close
  dsimp only
  split
  · split
    · rfl
    · simp [List.getElem?_set, Ne.symm hk]
  · rfl

theorem closeIfOpen_files (fs : FS) (f : Option Nat) : (closeIfOpen fs f).files = fs.files := by
  cases f with
  | none => rfl
  | some h => exact close_files fs h

theorem closeIfOpen_length (fs : FS) (f : Option Nat) :
    (closeIfOpen fs f).handles.length = fs.handles.length := by
  cases f with
  | none => rfl
  | some h => exact close_length fs h

theorem closeIfOpen_trace (fs : FS) (f : Option Nat) :
    (closeIfOpen fs f).trace
      = fs.trace ++ (match f with
          | some h => [SysCall.close h]
          | none => []) := by
  cases f with
  | none => simp [closeIfOpen]
  | some h => exact close_trace fs h

theorem openFile_create (fs : FS) (path : String) (append : Bool) :
    fs.openFile path true append none
      = ({ files := Function.update fs.files path (some ((fs.files path).getD []))
           handles := fs.handles ++ [{ path := path, append := append, pos := 0, closed := false }]
           trace := fs.trace ++ [SysCall.openFile path true append true] },
         .ok fs.handles.length) := by
  unfold FS.openFile
  dsimp only
  cases hf : fs.files path with
  | none => simp
  | some c =>
    have : Function.update fs.files path (some c) = fs.files := by
      rw [← hf]; exact Function.update_eq_self path fs.files
    simp [this]

theorem openFile_fail (fs : FS) (path : String) (create append : Bool) (err : String) :
    fs.openFile path create append (some err)
      = ({ fs with trace := fs.trace ++ [SysCall.openFile path create append false] },
         .error err) := rfl

theorem write_append (fs : FS) (h : Nat) (p : Bytes) (e : OpenFile)
    (he : fs.handles[h]? = some e) (hc : e.closed = false) (ha : e.append = true) :
    fs.write h p
      = ({ fs with
             files := Function.update fs.files e.path (some ((fs.files e.path).getD [] ++ p))
             trace := fs.trace ++ [SysCall.write h p true] }, p.length, none) := by
  unfold FS.write
  rw [he]
  simp [hc, ha]

theorem write_closed (fs : FS) (h : Nat) (p : Bytes) (e : OpenFile)
    (he : fs.handles[h]? = some e) (hc : e.closed = true) :
    fs.write h p
      = ({ fs with trace := fs.trace ++ [SysCall.write h p false] }, 0,
          some "file already closed") := by
  unfold FS.write
  rw [he]
  simp [hc]

theorem write_trace (fs : FS) (h : Nat) (p : Bytes) :
    ∃ ok, (fs.write h p).1.trace = fs.trace ++ [SysCall.write h p ok] := by
  unfold FS.write
  split
  · split
    · exact ⟨false, rfl⟩
    · split
      · exact ⟨true, rfl⟩
      · exact ⟨true, rfl⟩
  · exact ⟨false, rfl⟩

/-! ### The daily log sink -/

theorem getElem?_concat_self (hs : List OpenFile) (e : OpenFile) (n : Nat) (hn : n = hs.length) :
    (hs ++ [e])[n]? = some e := by
  subst hn
  simp

theorem Write_rotate (join : String → String → String) (w : dailyFileWriter) (fs : FS)
    (now : Time) (p : Bytes) (hrot : w.file = none ∨ w.date ≠ formatDate now) :
    w.Write join fs now none p
      = ({ w with file := some fs.handles.length, date := formatDate now },
         { files := Function.update fs.files
             (join w.dir (w.filePrefix ++ "-" ++ formatDate now ++ ".log"))
             (some ((fs.files (join w.dir (w.filePrefix ++ "-" ++ formatDate now ++ ".log"))).getD []
               ++ p))
           handles := (closeIfOpen fs w.file).handles ++
             [{ path := join w.dir (w.filePrefix ++ "-" ++ formatDate now ++ ".log"),
                append := true, pos := 0, closed := false }]
           trace := (closeIfOpen fs w.file).trace ++
             [SysCall.openFile (join w.dir (w.filePrefix ++ "-" ++ formatDate now ++ ".log"))
               true true true] ++
             [SysCall.write fs.handles.length p true] },
         p.length, none) := by
  unfold dailyFileWriter.Write
  simp only [hrot, if_true, openFile_create, fileWrite]
  rw [write_append _ _ p
    { path := join w.dir (w.filePrefix ++ "-" ++ formatDate now ++ ".log"),
      append := true, pos := 0, closed := false }
    (getElem?_concat_self _ _ _ rfl) rfl rfl]
  simp [closeIfOpen_files, closeIfOpen_length]

theorem Write_rotate_fail (join : String → String → String) (w : dailyFileWriter) (fs : FS)
    (now : Time) (err : String) (p : Bytes) (hrot : w.file = none ∨ w.date ≠ formatDate now) :
    w.Write join fs now (some err) p
      = (w,
         { files := fs.files
           handles := (closeIfOpen fs w.file).handles
           trace := (closeIfOpen fs w.file).trace ++
             [SysCall.openFile (join w.dir (w.filePrefix ++ "-" ++ formatDate now ++ ".log"))
               true true false] },
         0, some err) := by
  unfold dailyFileWriter.Write
  simp only [hrot, if_true, openFile_fail, closeIfOpen_files]

theorem Write_same_day (join : String → String → String) (w : dailyFileWriter) (fs : FS)
    (now : Time) (openErr : Option String) (p : Bytes) (h : Nat)
    (hf : w.file = some h) (hd : w.date = formatDate now) :
    w.Write join fs now openErr p = (w, fs.write h p) := by
  unfold dailyFileWriter.Write
  simp [hf, hd, fileWrite]

/-- C3: a `Write` call made when no file is open or the recorded date differs
from today's, and whose `os.OpenFile` succeeds: reports all bytes written;
leaves the sink with today's date and a fresh handle; has closed the handle
that was open before (if any); has opened
`join dir (prefix-<today>.log)` with `O_CREATE` and `O_APPEND`; has made the
calls close, open, write in this order, the write going to the new handle;
has appended the bytes to the new file's previous contents (none if it was
absent); has left every other file, the prior day's among them, untouched;
and today's date is printed as `YYYY-MM-DD`. -/
theorem Write_rotation (join : String → String → String) (w : dailyFileWriter) (fs : FS)
    (now : Time) (p : Bytes) (hrot : w.file = none ∨ w.date ≠ formatDate now) :
    (w.Write join fs now none p).2.2 = (p.length, none) ∧
    (w.Write join fs now none p).1
      = { w with file := some fs.handles.length, date := formatDate now } ∧
    (∀ h e, w.file = some h → fs.handles[h]? = some e →
      (w.Write join fs now none p).2.1.handles[h]? = some { e with closed := true }) ∧
    (w.Write join fs now none p).2.1.handles[fs.handles.length]?
      = some { path := join w.dir (w.filePrefix ++ "-" ++ formatDate now ++ ".log"),
               append := true, pos := 0, closed := false } ∧
    (w.Write join fs now none p).2.1.trace
      = fs.trace ++ (match w.file with
          | some h => [SysCall.close h]
          | none => []) ++
        [SysCall.openFile (join w.dir (w.filePrefix ++ "-" ++ formatDate now ++ ".log"))
           true true true,
         SysCall.write fs.handles.length p true] ∧
    (w.Write join fs now none p).2.1.files
        (join w.dir (w.filePrefix ++ "-" ++ formatDate now ++ ".log"))
      = some ((fs.files (join w.dir (w.filePrefix ++ "-" ++ formatDate now ++ ".log"))).getD []
          ++ p) ∧
    (∀ q, q ≠ join w.dir (w.filePrefix ++ "-" ++ formatDate now ++ ".log") →
      (w.Write join fs now none p).2.1.files q = fs.files q) ∧
    (now.valid → (formatDate now).data
      = [Nat.digitChar (now.year / 1000), Nat.digitChar (now.year / 100 % 10),
         Nat.digitChar (now.year / 10 % 10), Nat.digitChar (now.year % 10), '-',
         Nat.digitChar (now.month / 10), Nat.digitChar (now.month % 10), '-',
         Nat.digitChar (now.day / 10), Nat.digitChar (now.day % 10)]) := by
  rw [Write_rotate join w fs now p hrot]
  refine ⟨rfl, rfl, ?_, ?_, ?_, ?_, ?_, formatDate_data now⟩
  · intro h e hf he
    have hlt : h < fs.handles.length := by
      rcases Nat.lt_or_ge h fs.handles.length with hl | hl
      · exact hl
      · rw [List.getElem?_eq_none hl] at he; cases he
    dsimp only
    rw [List.getElem?_append_left (by rw [closeIfOpen_length]; exact hlt), hf]
    exact close_getElem_self fs h e he
  · exact getElem?_concat_self _ _ _ (closeIfOpen_length fs w.file).symm
  · dsimp only
    rw [closeIfOpen_trace]
    simp
  · simp
  · intro q hq
    simp [Function.update, hq]

/-- C3 at a concrete input: the sink holds the handle of 9 March's file and the
next write comes on 10 March; the bytes land in the new file, the old file
keeps its contents and its handle is closed. -/
theorem Write_rotation_witness :
    (sinkDay1.Write joinSlash fsDay1 earlyMorning none [5]).1
      = { sinkDay1 with file := some 1, date := "2024-03-10" } ∧
    (sinkDay1.Write joinSlash fsDay1 earlyMorning none [5]).2.1.files "logs/app-2024-03-10.log"
      = some [5] ∧
    (sinkDay1.Write joinSlash fsDay1 earlyMorning none [5]).2.1.files "logs/app-2024-03-09.log"
      = some [1, 2] ∧
    (sinkDay1.Write joinSlash fsDay1 earlyMorning none [5]).2.1.handles[0]?
      = some { path := "logs/app-2024-03-09.log", append := true, pos := 0, closed := true } :=
  ⟨(Write_rotation joinSlash sinkDay1 fsDay1 earlyMorning [5] (Or.inr (by decide))).2.1,
   (Write_rotation joinSlash sinkDay1 fsDay1 earlyMorning [5] (Or.inr (by decide))).2.2.2.2.2.1,
   (Write_rotation joinSlash sinkDay1 fsDay1 earlyMorning [5] (Or.inr (by decide))).2.2.2.2.2.2.1
     "logs/app-2024-03-09.log" (by decide),
   (Write_rotation joinSlash sinkDay1 fsDay1 earlyMorning [5] (Or.inr (by decide))).2.2.1
     0 _ rfl rfl⟩

theorem dateLE_antisymm (a b : Nat × Nat × Nat) (h1 : dateLE a b) (h2 : dateLE b a) : a = b := by
  obtain ⟨a1, a2, a3⟩ := a
  obtain ⟨b1, b2, b3⟩ := b
  simp only [dateLE] at h1 h2
  simp only [Prod.mk.injEq]
  omega

theorem formatDate_congr (a b : Time) (h : a.date = b.date) : formatDate a = formatDate b := by
  simp only [Time.date, Prod.mk.injEq] at h
  obtain ⟨hy, hm, hd⟩ := h
  simp only [formatDate, hy, hm, hd]

theorem formatDate_ne_empty (t : Time) (h : t.valid) : formatDate t ≠ "" := by
  intro he
  have hd := congrArg String.data he
  rw [formatDate_data t h] at hd
  cases hd

theorem countOpens_append (a b : List SysCall) :
    countOpens (a ++ b) = countOpens a + countOpens b := by
  simp [countOpens]

theorem countOpens_write (fs : FS) (h : Nat) (p : Bytes) :
    countOpens (fs.write h p).1.trace = countOpens fs.trace := by
  obtain ⟨ok, hok⟩ := write_trace fs h p
  rw [hok, countOpens_append]
  simp [countOpens]

theorem countOpens_closeIfOpen (fs : FS) (f : Option Nat) :
    countOpens (closeIfOpen fs f).trace = countOpens fs.trace := by
  rw [closeIfOpen_trace, countOpens_append]
  cases f <;> simp [countOpens]

theorem countOpens_rotate (join : String → String → String) (w : dailyFileWriter) (fs : FS)
    (now : Time) (p : Bytes) (hrot : w.file = none ∨ w.date ≠ formatDate now) :
    countOpens (w.Write join fs now none p).2.1.trace = countOpens fs.trace + 1 := by
  rw [Write_rotate join w fs now p hrot]
  dsimp only
  rw [countOpens_append, countOpens_append, countOpens_closeIfOpen]
  simp [countOpens]

/-- The opens of a run that starts with a file open for the date of `t0`. -/
theorem countOpens_run (join : String → String → String) (calls : List WriteCall) :
    ∀ (w : dailyFileWriter) (fs : FS) (t0 : Time) (h : Nat), t0.valid → w.file = some h →
      w.date = formatDate t0 →
      (∀ c ∈ calls, c.now.valid ∧ c.openErr = none) →
      List.Pairwise dateLE (t0.date :: calls.map fun c => c.now.date) →
      countOpens (runWrites join w fs calls).2.trace + 1
        = countOpens fs.trace + (List.dedup (t0.date :: calls.map fun c => c.now.date)).length := by
  induction calls with
  | nil =>
    intro w fs t0 h _ _ _ _ _
    simp [runWrites]
  | cons c cs ih =>
    intro w fs t0 h hv hf hd hall hsorted
    have hc := hall c (List.mem_cons_self _ _)
    have hcs : ∀ c1 ∈ cs, c1.now.valid ∧ c1.openErr = none :=
      fun c1 h1 => hall c1 (List.mem_cons_of_mem _ h1)
    rw [List.map_cons] at hsorted ⊢
    rw [List.pairwise_cons] at hsorted
    obtain ⟨h0, hrest⟩ := hsorted
    simp only [runWrites]
    rw [hc.2]
    by_cases hsame : w.date = formatDate c.now
    · -- the same day: no rotation
      have hdate : t0.date = c.now.date := formatDate_inj t0 c.now hv hc.1 (hd ▸ hsame)
      rw [Write_same_day join w fs c.now none c.p h hf hsame]
      dsimp only
      have := ih w (fs.write h c.p).1 t0 h hv hf hd hcs
        (by
          rw [List.pairwise_cons] at hrest ⊢
          exact ⟨fun x hx => h0 x (List.mem_cons_of_mem _ hx), hrest.2⟩)
      have e1 : (t0.date :: c.now.date :: cs.map fun c => c.now.date).dedup
          = (c.now.date :: cs.map fun c => c.now.date).dedup :=
        List.dedup_cons_of_mem (by rw [hdate]; exact List.mem_cons_self _ _)
      have e2 : (t0.date :: cs.map fun c => c.now.date).dedup
          = (c.now.date :: cs.map fun c => c.now.date).dedup := by rw [hdate]
      rw [this, countOpens_write, e1, e2]
    · -- a new day: rotation
      have hrot : w.file = none ∨ w.date ≠ formatDate c.now := Or.inr hsame
      have hne : t0.date ≠ c.now.date := fun he => hsame (hd ▸ formatDate_congr t0 c.now he)
      have hnotin : t0.date ∉ c.now.date :: cs.map fun c => c.now.date := by
        intro hin
        rcases List.mem_cons.mp hin with he | hin
        · exact hne he
        · rw [List.pairwise_cons] at hrest
          exact hne (dateLE_antisymm _ _ (h0 _ (List.mem_cons_self _ _))
            (by have := hrest.1 _ hin; exact this))
      have hw := Write_rotate join w fs c.now c.p hrot
      have := ih (w.Write join fs c.now none c.p).1 (w.Write join fs c.now none c.p).2.1
        c.now fs.handles.length hc.1 (by rw [hw]) (by rw [hw]) hcs hrest
      rw [this, countOpens_rotate join w fs c.now c.p hrot,
        List.dedup_cons_of_not_mem hnotin, List.length_cons]
      omega

theorem Write_keeps_open (join : String → String → String) (w : dailyFileWriter) (fs : FS)
    (now : Time) (p : Bytes)
    (hinv : (w.date = "" ∧ w.file = none) ∨
      ∃ h e, w.file = some h ∧ fs.handles[h]? = some e ∧ e.closed = false ∧ e.append = true) :
    ∃ h e, (w.Write join fs now none p).1.file = some h ∧
      (w.Write join fs now none p).2.1.handles[h]? = some e ∧ e.closed = false ∧
      e.append = true := by
  by_cases hrot : w.file = none ∨ w.date ≠ formatDate now
  · rw [Write_rotate join w fs now p hrot]
    exact ⟨fs.handles.length, _, rfl,
      getElem?_concat_self _ _ _ (closeIfOpen_length fs w.file).symm, rfl, rfl⟩
  · rw [not_or, not_not] at hrot
    rcases hinv with ⟨_, hnone⟩ | ⟨h, e, hf, he, hc, ha⟩
    · exact absurd hnone hrot.1
    · rw [Write_same_day join w fs now none p h hf hrot.2, write_append fs h p e he hc ha]
      exact ⟨h, e, hf, he, hc, ha⟩

theorem runWrites_keeps_open (join : String → String → String) (calls : List WriteCall) :
    ∀ (w : dailyFileWriter) (fs : FS),
      ((w.date = "" ∧ w.file = none) ∨
        ∃ h e, w.file = some h ∧ fs.handles[h]? = some e ∧ e.closed = false ∧ e.append = true) →
      (∀ c ∈ calls, c.openErr = none) →
      ((runWrites join w fs calls).1.date = "" ∧ (runWrites join w fs calls).1.file = none) ∨
        ∃ h e, (runWrites join w fs calls).1.file = some h ∧
          (runWrites join w fs calls).2.handles[h]? = some e ∧ e.closed = false ∧
          e.append = true := by
  induction calls with
  | nil => intro w fs hinv _; exact hinv
  | cons c cs ih =>
    intro w fs hinv hall
    simp only [runWrites]
    apply ih
    · rw [hall c (List.mem_cons_self _ _)]
      exact Or.inr (Write_keeps_open join w fs c.now c.p hinv)
    · exact fun c1 h1 => hall c1 (List.mem_cons_of_mem _ h1)

theorem countOpens_run_new (join : String → String → String) (dir pfx : String) (fs0 : FS)
    (calls : List WriteCall) (hall : ∀ c ∈ calls, c.now.valid ∧ c.openErr = none)
    (hsorted : List.Pairwise dateLE (calls.map fun c => c.now.date)) :
    countOpens (runWrites join (dailyFileWriter.new dir pfx) fs0 calls).2.trace
      = countOpens fs0.trace + (List.dedup (calls.map fun c => c.now.date)).length := by
  cases calls with
  | nil => simp [runWrites]
  | cons c cs =>
    have hc := hall c (List.mem_cons_self _ _)
    have hrot : (dailyFileWriter.new dir pfx).file = none ∨
        (dailyFileWriter.new dir pfx).date ≠ formatDate c.now := Or.inl rfl
    have hw := Write_rotate join (dailyFileWriter.new dir pfx) fs0 c.now c.p hrot
    have := countOpens_run join cs
      ((dailyFileWriter.new dir pfx).Write join fs0 c.now none c.p).1
      ((dailyFileWriter.new dir pfx).Write join fs0 c.now none c.p).2.1
      c.now fs0.handles.length hc.1 (by rw [hw]) (by rw [hw])
      (fun c1 h1 => hall c1 (List.mem_cons_of_mem _ h1)) hsorted
    rw [countOpens_rotate join _ fs0 c.now c.p hrot] at this
    simp only [runWrites]
    rw [hc.2]
    rw [List.map_cons]
    omega

/-- C9: on a sequence of `Write` calls on a freshly set-up sink, with every
`os.OpenFile` succeeding and the calendar dates of the clock readings
non-decreasing, the number of `os.OpenFile` calls made equals the number of
distinct dates in the sequence (so a file is opened on the first write and once
per change of date); and a call whose date equals the one the sink has recorded
makes no call but the write to the handle it holds, which is open, and leaves
the sink (date and handle) and the table of handles unchanged. -/
theorem Write_opens_once_per_date (join : String → String → String) (dir pfx : String)
    (fs0 : FS) (calls : List WriteCall)
    (hall : ∀ c ∈ calls, c.now.valid ∧ c.openErr = none)
    (hsorted : List.Pairwise dateLE (calls.map fun c => c.now.date)) :
    countOpens (runWrites join (dailyFileWriter.new dir pfx) fs0 calls).2.trace
      = countOpens fs0.trace + (List.dedup (calls.map fun c => c.now.date)).length ∧
    (∀ pre c post w fs, calls = pre ++ c :: post →
      runWrites join (dailyFileWriter.new dir pfx) fs0 pre = (w, fs) →
      w.date = formatDate c.now →
      ∃ h, w.file = some h ∧ fs.isOpen h = true ∧
        (w.Write join fs c.now c.openErr c.p).1 = w ∧
        (w.Write join fs c.now c.openErr c.p).2.1.trace = fs.trace ++ [SysCall.write h c.p true] ∧
        (w.Write join fs c.now c.openErr c.p).2.1.handles = fs.handles ∧
        (w.Write join fs c.now c.openErr c.p).2.2 = (c.p.length, none)) := by
  refine ⟨countOpens_run_new join dir pfx fs0 calls hall hsorted, ?_⟩
  intro pre c post w fs hsplit hrun hdate
  have hpre : ∀ c1 ∈ pre, c1.openErr = none := fun c1 h1 =>
    (hall c1 (by rw [hsplit]; exact List.mem_append_left _ h1)).2
  have hcv : c.now.valid := (hall c (by rw [hsplit]; simp)).1
  have hinv := runWrites_keeps_open join pre (dailyFileWriter.new dir pfx) fs0
    (Or.inl ⟨rfl, rfl⟩) hpre
  rw [hrun] at hinv
  rcases hinv with ⟨hempty, _⟩ | ⟨h, e, hf, he, hc, ha⟩
  · exact absurd (hdate ▸ hempty) (formatDate_ne_empty c.now hcv)
  · refine ⟨h, hf, by simp [FS.isOpen, he, hc], ?_⟩
    rw [Write_same_day join w fs c.now c.openErr c.p h hf hdate, write_append fs h c.p e he hc ha]
    exact ⟨rfl, rfl, rfl, rfl⟩

/-- C9 at a concrete input: four writes over two dates make two opens. -/
theorem Write_opens_once_per_date_witness :
    countOpens (runWrites joinSlash (dailyFileWriter.new "logs" "app") FS.empty fourWrites).2.trace
      = countOpens FS.empty.trace + (List.dedup (fourWrites.map fun c => c.now.date)).length :=
  (Write_opens_once_per_date joinSlash "logs" "app" FS.empty fourWrites
    (by decide) (by decide)).1

theorem allWritesOpen_append (a b : List SysCall) :
    allWritesOpen (a ++ b) ↔ allWritesOpen a ∧ allWritesOpen b := by
  unfold allWritesOpen
  constructor
  · intro h
    exact ⟨fun x p ok hx => h x p ok (List.mem_append_left _ hx),
      fun x p ok hx => h x p ok (List.mem_append_right _ hx)⟩
  · rintro ⟨ha, hb⟩ x p ok hx
    rcases List.mem_append.mp hx with h1 | h1
    · exact ha x p ok h1
    · exact hb x p ok h1

theorem allWritesOpen_closeIfOpen (fs : FS) (f : Option Nat) (h : allWritesOpen fs.trace) :
    allWritesOpen (closeIfOpen fs f).trace := by
  rw [closeIfOpen_trace, allWritesOpen_append]
  refine ⟨h, ?_⟩
  cases f <;> simp [allWritesOpen]

/-- The invariant behind C10: a sink whose handle is closed has recorded a date
that none of the remaining calls carries. -/
theorem runWrites_allWritesOpen (join : String → String → String) (calls : List WriteCall) :
    ∀ (w : dailyFileWriter) (fs : FS),
      (w.file = none ∨ ∃ h e t0, w.file = some h ∧ fs.handles[h]? = some e ∧ e.append = true ∧
        w.date = formatDate t0 ∧ t0.valid ∧ (∀ c ∈ calls, dateLE t0.date c.now.date) ∧
        (e.closed = true → ∀ c ∈ calls, c.now.date ≠ t0.date)) →
      (∀ c ∈ calls, c.now.valid) →
      List.Pairwise dateLE (calls.map fun c => c.now.date) →
      allWritesOpen fs.trace →
      allWritesOpen (runWrites join w fs calls).2.trace := by
  induction calls with
  | nil => intro w fs _ _ _ h; exact h
  | cons c cs ih =>
    intro w fs hinv hvalid hsorted htrace
    have hcv : c.now.valid := hvalid c (List.mem_cons_self _ _)
    have hcs : ∀ c1 ∈ cs, c1.now.valid := fun c1 h1 => hvalid c1 (List.mem_cons_of_mem _ h1)
    rw [List.map_cons, List.pairwise_cons] at hsorted
    obtain ⟨h0, hrest⟩ := hsorted
    have hle : ∀ c1 ∈ cs, dateLE c.now.date c1.now.date := fun c1 h1 =>
      h0 _ (List.mem_map_of_mem (fun c => c.now.date) h1)
    simp only [runWrites]
    by_cases hrot : w.file = none ∨ w.date ≠ formatDate c.now
    · cases hoe : c.openErr with
      | none =>
        have hw := Write_rotate join w fs c.now c.p hrot
        apply ih _ _ _ hcs hrest
        · rw [hw]
          dsimp only
          rw [allWritesOpen_append, allWritesOpen_append]
          exact ⟨⟨allWritesOpen_closeIfOpen fs w.file htrace, by simp [allWritesOpen]⟩,
            by simp [allWritesOpen]⟩
        · right
          rw [hw]
          exact ⟨fs.handles.length, _, c.now, rfl,
            getElem?_concat_self _ _ _ (closeIfOpen_length fs w.file).symm, rfl, rfl, hcv, hle,
            fun hc => by cases hc⟩
      | some err =>
        have hw := Write_rotate_fail join w fs c.now err c.p hrot
        apply ih _ _ _ hcs hrest
        · rw [hw]
          dsimp only
          rw [allWritesOpen_append]
          exact ⟨allWritesOpen_closeIfOpen fs w.file htrace, by simp [allWritesOpen]⟩
        · rw [hw]
          dsimp only
          rcases hinv with hnone | ⟨h, e, t0, hf, he, ha, hd, ht0, hle0, _⟩
          · exact Or.inl hnone
          · right
            have hne : w.date ≠ formatDate c.now := by
              rcases hrot with h1 | h1
              · rw [hf] at h1; cases h1
              · exact h1
            have hdne : t0.date ≠ c.now.date := fun he1 =>
              hne (hd ▸ formatDate_congr t0 c.now he1)
            refine ⟨h, { e with closed := true }, t0, hf, ?_, ha, hd, ht0,
              fun c1 h1 => hle0 c1 (List.mem_cons_of_mem _ h1), ?_⟩
            · rw [hf]; exact close_getElem_self fs h e he
            · intro _ c1 h1 heq
              exact hdne (dateLE_antisymm _ _ (hle0 c (List.mem_cons_self _ _))
                (heq ▸ hle c1 h1))
    · rw [not_or, not_not] at hrot
      rcases hinv with hnone | ⟨h, e, t0, hf, he, ha, hd, ht0, hle0, hclosed⟩
      · exact absurd hnone hrot.1
      · have hdate : t0.date = c.now.date := formatDate_inj t0 c.now ht0 hcv (hd ▸ hrot.2)
        have hc : e.closed = false := by
          cases hcl : e.closed with
          | false => rfl
          | true => exact absurd hdate.symm (hclosed hcl c (List.mem_cons_self _ _))
        rw [Write_same_day join w fs c.now c.openErr c.p h hf hrot.2,
          write_append fs h c.p e he hc ha]
        apply ih _ _ _ hcs hrest
        · dsimp only
          rw [allWritesOpen_append]
          exact ⟨htrace, by simp [allWritesOpen]⟩
        · right
          exact ⟨h, e, t0, hf, he, ha, hd, ht0,
            fun c1 h1 => hle0 c1 (List.mem_cons_of_mem _ h1),
            fun hcl => by rw [hc] at hcl; cases hcl⟩

/-- C10: when a `Write` call has to rotate and `os.OpenFile` fails, the call
returns the byte count 0 with the error of the open, leaves the sink's date and
handle field as they were, changes no file, makes no write (its calls are the
close of the old handle, if any, and the failed open), and the handle the sink
still holds is closed from then on; and on every sequence of `Write` calls on a
freshly set-up sink with non-decreasing dates and any pattern of open failures,
every write the sink issues reaches a handle that is open at that moment. -/
theorem Write_open_failure (join : String → String → String) (w : dailyFileWriter) (fs : FS)
    (now : Time) (err : String) (p : Bytes) (dir pfx : String) (fs0 : FS)
    (calls : List WriteCall) :
    ((w.file = none ∨ w.date ≠ formatDate now) →
      (w.Write join fs now (some err) p).2.2 = (0, some err) ∧
      (w.Write join fs now (some err) p).1 = w ∧
      (w.Write join fs now (some err) p).2.1.files = fs.files ∧
      (w.Write join fs now (some err) p).2.1.trace
        = fs.trace ++ (match w.file with
            | some h => [SysCall.close h]
            | none => []) ++
          [SysCall.openFile (join w.dir (w.filePrefix ++ "-" ++ formatDate now ++ ".log"))
            true true false] ∧
      (∀ h e, w.file = some h → fs.handles[h]? = some e →
        (w.Write join fs now (some err) p).2.1.handles[h]? = some { e with closed := true })) ∧
    ((∀ c ∈ calls, c.now.valid) →
      List.Pairwise dateLE (calls.map fun c => c.now.date) →
      allWritesOpen fs0.trace →
      allWritesOpen (runWrites join (dailyFileWriter.new dir pfx) fs0 calls).2.trace) := by
  constructor
  · intro hrot
    rw [Write_rotate_fail join w fs now err p hrot]
    refine ⟨rfl, rfl, rfl, ?_, ?_⟩
    · dsimp only
      rw [closeIfOpen_trace]
    · intro h e hf he
      dsimp only
      rw [hf]
      exact close_getElem_self fs h e he
  · intro hvalid hsorted htrace
    exact runWrites_allWritesOpen join calls _ fs0 (Or.inl rfl) hvalid hsorted htrace

/-- C10 at concrete inputs: the open of 10 March's file is refused, the sink
keeps the date and the handle of 9 March, now closed; and in the run
`fourWritesOneRefused` every write reaches an open handle. -/
theorem Write_open_failure_witness :
    ((sinkDay1.Write joinSlash fsDay1 earlyMorning (some "permission denied") [4]).2.2
        = (0, some "permission denied") ∧
      (sinkDay1.Write joinSlash fsDay1 earlyMorning (some "permission denied") [4]).1
        = sinkDay1 ∧
      (sinkDay1.Write joinSlash fsDay1 earlyMorning (some "permission denied") [4]).2.1.handles[0]?
        = some { path := "logs/app-2024-03-09.log", append := true, pos := 0, closed := true }) ∧
    allWritesOpen
      (runWrites joinSlash (dailyFileWriter.new "logs" "app") FS.empty fourWritesOneRefused).2.trace :=
  ⟨⟨((Write_open_failure joinSlash sinkDay1 fsDay1 earlyMorning "permission denied" [4]
        "logs" "app" FS.empty fourWritesOneRefused).1 (Or.inr (by decide))).1,
    ((Write_open_failure joinSlash sinkDay1 fsDay1 earlyMorning "permission denied" [4]
        "logs" "app" FS.empty fourWritesOneRefused).1 (Or.inr (by decide))).2.1,
    ((Write_open_failure joinSlash sinkDay1 fsDay1 earlyMorning "permission denied" [4]
        "logs" "app" FS.empty fourWritesOneRefused).1 (Or.inr (by decide))).2.2.2.2 0 _ rfl rfl⟩,
   (Write_open_failure joinSlash sinkDay1 fsDay1 earlyMorning "permission denied" [4]
      "logs" "app" FS.empty fourWritesOneRefused).2 (by decide) (by decide)
      (by simp [allWritesOpen, FS.empty])⟩

/-! ### The capture loop -/

theorem loopBody_capture_error (join : String → String → String) (cfg : Config) (env : IterEnv)
    (wd : World) (err : String)
    (hcap : captureFrame env.run (durationOfMS cfg.RequestTimeoutMS) cfg = .error err) :
    loopBody join cfg env wd
      = { fs := wd.fs
          events := wd.events ++
            [.capture (captureCmd (durationOfMS cfg.RequestTimeoutMS) cfg),
             .log .Error ("capture failed: " ++ err)] } := by
  simp [loopBody, hcap, World.emit]

theorem loopBody_local (join : String → String → String) (cfg : Config) (env : IterEnv)
    (wd : World) (frame : Bytes)
    (hcap : captureFrame env.run (durationOfMS cfg.RequestTimeoutMS) cfg = .ok frame)
    (hurl : cfg.PostURL = "") :
    loopBody join cfg env wd
      = { fs := (saveImage join wd.fs cfg frame env.saveNow env.mkdirErr env.writeErr).1
          events := wd.events ++
            [.capture (captureCmd (durationOfMS cfg.RequestTimeoutMS) cfg), .save frame,
             match (saveImage join wd.fs cfg frame env.saveNow env.mkdirErr env.writeErr).2 with
             | some err => .log .Error ("save failed: " ++ err)
             | none => .log .Info
                 ("saved frame, size=" ++ toString frame.length ++ " bytes, cost=" ++ env.cost)] } := by
  simp only [loopBody, hcap, hurl, World.emit, if_true]
  rcases hs : saveImage join wd.fs cfg frame env.saveNow env.mkdirErr env.writeErr with ⟨fs1, e⟩
  cases e <;> simp

theorem loopBody_remote (join : String → String → String) (cfg : Config) (env : IterEnv)
    (wd : World) (frame : Bytes)
    (hcap : captureFrame env.run (durationOfMS cfg.RequestTimeoutMS) cfg = .ok frame)
    (hurl : cfg.PostURL ≠ "") :
    loopBody join cfg env wd
      = { fs := wd.fs
          events := wd.events ++
            [.capture (captureCmd (durationOfMS cfg.RequestTimeoutMS) cfg), .send frame,
             match sendImage env.client cfg frame with
             | .error err => .log .Error ("post failed: " ++ err)
             | .ok _ => .log .Info
                 ("posted frame, size=" ++ toString frame.length ++ " bytes, cost=" ++ env.cost)] } := by
  simp only [loopBody, hcap, hurl, World.emit, if_false]
  cases hs : sendImage env.client cfg frame <;> simp

/-- The events one pass of the loop body adds. -/
theorem loopBody_events (join : String → String → String) (cfg : Config) (env : IterEnv)
    (wd : World) :
    ∃ evs, (loopBody join cfg env wd).events = wd.events ++ evs ∧ (logsOf evs).length = 1 ∧
      (∀ d ∈ deliveriesOf evs, cfg.PostURL = "" ↔ ∃ data, d = .local_ data) := by
  cases hcap : captureFrame env.run (durationOfMS cfg.RequestTimeoutMS) cfg with
  | error err =>
    rw [loopBody_capture_error join cfg env wd err hcap]
    exact ⟨_, rfl, by simp [logsOf], by simp [deliveriesOf]⟩
  | ok frame =>
    by_cases hurl : cfg.PostURL = ""
    · rw [loopBody_local join cfg env wd frame hcap hurl]
      refine ⟨_, rfl, ?_, ?_⟩
      · cases (saveImage join wd.fs cfg frame env.saveNow env.mkdirErr env.writeErr).2 <;>
          simp [logsOf]
      · cases (saveImage join wd.fs cfg frame env.saveNow env.mkdirErr env.writeErr).2 <;>
          simp [deliveriesOf, hurl]
    · rw [loopBody_remote join cfg env wd frame hcap hurl]
      refine ⟨_, rfl, ?_, ?_⟩
      · cases sendImage env.client cfg frame <;> simp [logsOf]
      · cases sendImage env.client cfg frame <;> simp [deliveriesOf, hurl]

theorem logsOf_append (a b : List Event) : logsOf (a ++ b) = logsOf a ++ logsOf b := by
  induction a with
  | nil => rfl
  | cons e es ih => cases e <;> simp [logsOf, ih]

theorem deliveriesOf_append (a b : List Event) :
    deliveriesOf (a ++ b) = deliveriesOf a ++ deliveriesOf b := by
  induction a with
  | nil => rfl
  | cons e es ih => cases e <;> simp [deliveriesOf, ih]

/-- Any number of iterations, whatever their outcomes, ends at the top of the
loop again, with one log record per iteration and deliveries of one kind. -/
theorem runInputs_iterations (join : String → String → String) (cfg : Config)
    (envs : List IterEnv) :
    ∀ wd : World, ∃ wdN evs,
      runInputs join cfg (.loopHead wd) (iterations envs) = some (.loopHead wdN) ∧
      wdN.events = wd.events ++ evs ∧ (logsOf evs).length = envs.length ∧
      (∀ d ∈ deliveriesOf evs, cfg.PostURL = "" ↔ ∃ data, d = .local_ data) := by
  induction envs with
  | nil => intro wd; exact ⟨wd, [], rfl, by simp, rfl, by simp [deliveriesOf]⟩
  | cons env envs ih =>
    intro wd
    obtain ⟨evs1, h1, hl1, hd1⟩ := loopBody_events join cfg env wd
    obtain ⟨wdN, evs2, h2, he2, hl2, hd2⟩ := ih ((loopBody join cfg env wd).emit .wait)
    refine ⟨wdN, evs1 ++ [.wait] ++ evs2, ?_, ?_, ?_, ?_⟩
    · simp only [iterations, runInputs, loopStep]
      exact h2
    · rw [he2]
      simp [World.emit, h1]
    · rw [logsOf_append, logsOf_append]
      simp [logsOf, hl1, hl2]
      omega
    · intro d hd
      rw [deliveriesOf_append, deliveriesOf_append] at hd
      simp only [List.mem_append] at hd
      rcases hd with (hd | hd) | hd
      · exact hd1 d hd
      · simp [deliveriesOf] at hd
      · exact hd2 d hd

/-- C5: one pass of the loop body adds exactly one log record, whatever the
outcome: `capture failed`, `save failed` or `post failed` on the Error logger
when the capture, the save or the post returns an error, `saved frame` or
`posted frame` on the Info logger otherwise. After the body the loop waits for
the tick and the tick leads back to the top of the body. Every state inside the
loop has a step, no step leads out of the loop, and any number of iterations,
whatever their outcomes, ends at the top of the body with one log record per
iteration. -/
theorem loop_logs_once_and_continues (join : String → String → String) (cfg : Config)
    (env : IterEnv) (wd : World) :
    (∃ evs, (loopBody join cfg env wd).events = wd.events ++ evs ∧
      (logsOf evs).length = 1 ∧
      (∀ err, captureFrame env.run (durationOfMS cfg.RequestTimeoutMS) cfg = .error err →
        logsOf evs = [(.Error, "capture failed: " ++ err)]) ∧
      (∀ frame err, captureFrame env.run (durationOfMS cfg.RequestTimeoutMS) cfg = .ok frame →
        cfg.PostURL = "" →
        (saveImage join wd.fs cfg frame env.saveNow env.mkdirErr env.writeErr).2 = some err →
        logsOf evs = [(.Error, "save failed: " ++ err)]) ∧
      (∀ frame, captureFrame env.run (durationOfMS cfg.RequestTimeoutMS) cfg = .ok frame →
        cfg.PostURL = "" →
        (saveImage join wd.fs cfg frame env.saveNow env.mkdirErr env.writeErr).2 = none →
        logsOf evs = [(.Info,
          "saved frame, size=" ++ toString frame.length ++ " bytes, cost=" ++ env.cost)]) ∧
      (∀ frame err, captureFrame env.run (durationOfMS cfg.RequestTimeoutMS) cfg = .ok frame →
        cfg.PostURL ≠ "" → sendImage env.client cfg frame = .error err →
        logsOf evs = [(.Error, "post failed: " ++ err)]) ∧
      (∀ frame, captureFrame env.run (durationOfMS cfg.RequestTimeoutMS) cfg = .ok frame →
        cfg.PostURL ≠ "" → sendImage env.client cfg frame = .ok () →
        logsOf evs = [(.Info,
          "posted frame, size=" ++ toString frame.length ++ " bytes, cost=" ++ env.cost)])) ∧
    loopStep join cfg (.loopHead wd) (.attempt env)
      = some (.waitTick ((loopBody join cfg env wd).emit .wait)) ∧
    loopStep join cfg (.waitTick ((loopBody join cfg env wd).emit .wait)) .tick
      = some (.loopHead ((loopBody join cfg env wd).emit .wait)) ∧
    (∀ s : MainState, s.inLoop = true → ∃ i s1, loopStep join cfg s i = some s1) ∧
    (∀ (s : MainState) (i : Input) (s1 : MainState),
      loopStep join cfg s i = some s1 → s1.inLoop = true) ∧
    (∀ envs : List IterEnv, ∃ wdN evs,
      runInputs join cfg (.loopHead wd) (iterations envs) = some (.loopHead wdN) ∧
      wdN.events = wd.events ++ evs ∧ (logsOf evs).length = envs.length) := by
  refine ⟨?_, rfl, rfl, ?_, ?_, ?_⟩
  · cases hcap : captureFrame env.run (durationOfMS cfg.RequestTimeoutMS) cfg with
    | error err =>
      rw [loopBody_capture_error join cfg env wd err hcap]
      refine ⟨_, rfl, by simp [logsOf], ?_, ?_, ?_, ?_, ?_⟩
      · intro err1 h1
        cases h1
        simp [logsOf]
      all_goals (intros; simp_all)
    | ok frame =>
      by_cases hurl : cfg.PostURL = ""
      · rw [loopBody_local join cfg env wd frame hcap hurl]
        refine ⟨_, rfl, ?_, ?_, ?_, ?_, ?_, ?_⟩
        · cases (saveImage join wd.fs cfg frame env.saveNow env.mkdirErr env.writeErr).2 <;>
            simp [logsOf]
        · intro err1 h1; cases h1
        · intro frame1 err1 h1 _ hs
          cases h1
          rw [hs]
          simp [logsOf]
        · intro frame1 h1 _ hs
          cases h1
          rw [hs]
          simp [logsOf]
        · intro frame1 err1 _ h2; exact absurd hurl h2
        · intro frame1 _ h2; exact absurd hurl h2
      · rw [loopBody_remote join cfg env wd frame hcap hurl]
        refine ⟨_, rfl, ?_, ?_, ?_, ?_, ?_, ?_⟩
        · cases sendImage env.client cfg frame <;> simp [logsOf]
        · intro err1 h1; cases h1
        · intro frame1 err1 _ h2; exact absurd h2 hurl
        · intro frame1 _ h2; exact absurd h2 hurl
        · intro frame1 err1 h1 _ hs
          cases h1
          rw [hs]
          simp [logsOf]
        · intro frame1 h1 _ hs
          cases h1
          rw [hs]
          simp [logsOf]
  · intro s hs
    cases s with
    | loopHead wd1 => exact ⟨.attempt env, _, rfl⟩
    | waitTick wd1 => exact ⟨.tick, _, rfl⟩
    | exited code wd1 => cases hs
  · intro s i s1 h
    cases s <;> cases i <;> simp [loopStep] at h <;> subst h <;> rfl
  · intro envs
    obtain ⟨wdN, evs, h1, h2, h3, _⟩ := runInputs_iterations join cfg envs wd
    exact ⟨wdN, evs, h1, h2, h3⟩

/-- C5 at a concrete input: three iterations whose capture fails leave the loop
running, with three log records. -/
theorem loop_logs_once_and_continues_witness :
    ∃ wdN evs,
      runInputs joinSlash cfgLocal (.loopHead World.empty) (iterations [envBad, envBad, envBad])
        = some (.loopHead wdN) ∧
      wdN.events = World.empty.events ++ evs ∧ (logsOf evs).length = 3 :=
  (loop_logs_once_and_continues joinSlash cfgLocal envBad World.empty).2.2.2.2.2
    [envBad, envBad, envBad]

theorem loopBody_client_irrelevant (join : String → String → String) (cfg : Config)
    (env : IterEnv) (wd : World) (client1 : HTTPClient) (hurl : cfg.PostURL = "") :
    loopBody join cfg { env with client := client1 } wd = loopBody join cfg env wd := by
  cases hcap : captureFrame env.run (durationOfMS cfg.RequestTimeoutMS) cfg with
  | error err =>
    rw [loopBody_capture_error join cfg env wd err hcap,
      loopBody_capture_error join cfg { env with client := client1 } wd err hcap]
  | ok frame =>
    rw [loopBody_local join cfg env wd frame hcap hurl,
      loopBody_local join cfg { env with client := client1 } wd frame hcap hurl]

theorem loopBody_disk_irrelevant (join : String → String → String) (cfg : Config)
    (env : IterEnv) (wd : World) (now1 : Time) (mkdirErr1 writeErr1 : Option String)
    (hurl : cfg.PostURL ≠ "") :
    loopBody join cfg { env with saveNow := now1, mkdirErr := mkdirErr1, writeErr := writeErr1 } wd
      = loopBody join cfg env wd := by
  cases hcap : captureFrame env.run (durationOfMS cfg.RequestTimeoutMS) cfg with
  | error err =>
    rw [loopBody_capture_error join cfg env wd err hcap,
      loopBody_capture_error join cfg
        { env with saveNow := now1, mkdirErr := mkdirErr1, writeErr := writeErr1 } wd err hcap]
  | ok frame =>
    rw [loopBody_remote join cfg env wd frame hcap hurl,
      loopBody_remote join cfg
        { env with saveNow := now1, mkdirErr := mkdirErr1, writeErr := writeErr1 } wd frame hcap
        hurl]

/-- C6: in one pass of the loop body no delivery is attempted when
`captureFrame` fails. When it succeeds with `frame`, exactly one delivery is
attempted. If `PostURL` is empty it is `saveImage` on `frame`: the file system
afterwards is the one `saveImage join wd.fs cfg frame` leaves, the log record
is decided by the error that call returns, and the HTTP client has no
influence on the pass. Otherwise it is `sendImage` on `frame`: the log record
is decided by what `sendImage env.client cfg frame` returns, the file system
is untouched, and the clock and the answers of the operating system that
`saveImage` would consume have no influence on the pass. Over any number of
iterations every delivery is of the kind `PostURL` selects. -/
theorem delivery_strategy (join : String → String → String) (cfg : Config) (env : IterEnv)
    (wd : World) :
    (∀ err, captureFrame env.run (durationOfMS cfg.RequestTimeoutMS) cfg = .error err →
      ∃ evs, (loopBody join cfg env wd).events = wd.events ++ evs ∧ deliveriesOf evs = [] ∧
        (loopBody join cfg env wd).fs = wd.fs) ∧
    (∀ frame, captureFrame env.run (durationOfMS cfg.RequestTimeoutMS) cfg = .ok frame →
      ∃ evs, (loopBody join cfg env wd).events = wd.events ++ evs ∧
        deliveriesOf evs = [if cfg.PostURL = "" then .local_ frame else .remote frame] ∧
        (loopBody join cfg env wd).fs
          = (if cfg.PostURL = "" then
              (saveImage join wd.fs cfg frame env.saveNow env.mkdirErr env.writeErr).1
            else wd.fs) ∧
        (cfg.PostURL = "" →
          logsOf evs
            = [match (saveImage join wd.fs cfg frame env.saveNow env.mkdirErr env.writeErr).2 with
               | some err => (.Error, "save failed: " ++ err)
               | none => (.Info,
                   "saved frame, size=" ++ toString frame.length ++ " bytes, cost=" ++ env.cost)]) ∧
        (cfg.PostURL ≠ "" →
          logsOf evs
            = [match sendImage env.client cfg frame with
               | .error err => (.Error, "post failed: " ++ err)
               | .ok _ => (.Info,
                   "posted frame, size=" ++ toString frame.length ++ " bytes, cost=" ++ env.cost)])) ∧
    (cfg.PostURL = "" → ∀ client1 : HTTPClient,
      loopBody join cfg { env with client := client1 } wd = loopBody join cfg env wd) ∧
    (cfg.PostURL ≠ "" → ∀ (now1 : Time) (mkdirErr1 writeErr1 : Option String),
      loopBody join cfg { env with saveNow := now1, mkdirErr := mkdirErr1, writeErr := writeErr1 } wd
        = loopBody join cfg env wd) ∧
    (∀ envs : List IterEnv, ∃ wdN evs,
      runInputs join cfg (.loopHead wd) (iterations envs) = some (.loopHead wdN) ∧
      wdN.events = wd.events ++ evs ∧
      ∀ d ∈ deliveriesOf evs, cfg.PostURL = "" ↔ ∃ data, d = .local_ data) := by
  refine ⟨?_, ?_, ?_, ?_, ?_⟩
  · intro err hcap
    rw [loopBody_capture_error join cfg env wd err hcap]
    exact ⟨_, rfl, by simp [deliveriesOf], rfl⟩
  · intro frame hcap
    by_cases hurl : cfg.PostURL = ""
    · rw [loopBody_local join cfg env wd frame hcap hurl]
      refine ⟨_, rfl, ?_, by simp [hurl], ?_, fun h => absurd hurl h⟩
      · cases (saveImage join wd.fs cfg frame env.saveNow env.mkdirErr env.writeErr).2 <;>
          simp [deliveriesOf, hurl]
      · intro _
        cases (saveImage join wd.fs cfg frame env.saveNow env.mkdirErr env.writeErr).2 <;>
          simp [logsOf]
    · rw [loopBody_remote join cfg env wd frame hcap hurl]
      refine ⟨_, rfl, ?_, by simp [hurl], fun h => absurd h hurl, ?_⟩
      · cases sendImage env.client cfg frame <;> simp [deliveriesOf, hurl]
      · intro _
        cases sendImage env.client cfg frame <;> simp [logsOf]
  · intro hurl client1
    exact loopBody_client_irrelevant join cfg env wd client1 hurl
  · intro hurl now1 mkdirErr1 writeErr1
    exact loopBody_disk_irrelevant join cfg env wd now1 mkdirErr1 writeErr1 hurl
  · intro envs
    obtain ⟨wdN, evs, h1, h2, _, h4⟩ := runInputs_iterations join cfg envs wd
    exact ⟨wdN, evs, h1, h2, h4⟩

/-- C6 at a concrete input: with an endpoint configured that accepts only the
three captured bytes, the pass logs `posted frame`, so `sendImage` received
exactly those bytes, and the file system stays as it was. -/
theorem delivery_strategy_witness :
    ∃ evs, (loopBody joinSlash cfgRemote envStrict World.empty).events
        = World.empty.events ++ evs ∧
      deliveriesOf evs = [Delivery.remote [1, 2, 3]] ∧
      logsOf evs = [(Level.Info, "posted frame, size=3 bytes, cost=1.5s")] :=
  match (delivery_strategy joinSlash cfgRemote envStrict World.empty).2.1 [1, 2, 3] rfl with
  | ⟨evs, h1, h2, _, _, h5⟩ => ⟨evs, h1, h2, (h5 (by decide)).trans rfl⟩

end Stream
